import Mathlib

/-!
# Research-Agent front end: `Frontend/src/App.jsx`

A shallow embedding of the `App` component: its six state cells, the two
asynchronous handlers `startSession` and `submitAnswers`, the two inline
`onChange` handlers, and the JSX that decides which controls exist at each
step.

Modelling conventions.

* A JavaScript string is the list of its UTF-16 code units (`JsString`), so
  that an unpaired surrogate is a value; a Lean `String` is read as the
  JavaScript string with the same characters.
* A value obtained from `res.json()` is a `Json`; reading a property that is
  not there gives `undefined`, which is `none : JsVal`.
* A remote call is resolved by a `Response` handed to the handler: the
  `fetch` promise rejects, `res.json()` rejects, or a JSON value is parsed.
* All state setters of a handler run after its last `await`, in one
  synchronous block, so a handler is a function from the state (and the
  responses) to the requests it sent and the state it leaves.
* `uiRun` runs every handler to completion at its click; `asyncRun` lets a
  handler started by a click resume later, after other events.
-/

namespace App

/-! ## JavaScript strings -/

/-- A JavaScript string: the list of its UTF-16 code units. -/
structure JsString where
  units : List (Fin 65536)
deriving DecidableEq

/-- The UTF-16 code units of one character. -/
def utf16Units (c : Char) : List (Fin 65536) :=
  if h : c.toNat < 0x10000 then [⟨c.toNat, h⟩]
  else
    [⟨0xD800 + (c.toNat - 0x10000) / 0x400, by
        have hv : c.toNat < 0xD800 ∨ (0xDFFF < c.toNat ∧ c.toNat < 0x110000) := c.valid
        omega⟩,
     ⟨0xDC00 + (c.toNat - 0x10000) % 0x400, by omega⟩]

/-- The code units of a list of characters. -/
def unitsOfChars : List Char → List (Fin 65536)
  | [] => []
  | c :: cs => utf16Units c ++ unitsOfChars cs

/-- The JavaScript string with the characters of a text. -/
def toUTF16 (s : String) : JsString := ⟨unitsOfChars s.data⟩

instance : Coe String JsString := ⟨toUTF16⟩

/-- The pieces of `Array.prototype.join` glued with commas. -/
def joinWithComma : List JsString → List (Fin 65536)
  | [] => []
  | [s] => s.units
  | s :: t :: rest => s.units ++ (44 : Fin 65536) :: joinWithComma (t :: rest)

/-! ## JavaScript values -/

/-- A value produced by `res.json()`. A finite number is carried as the text
that JavaScript prints for it, the only thing this program can observe of it;
`infinity` is the number an out-of-range literal such as `1e400` or `-1e400`
parses to. An object is the list of its own properties, each name once. -/
inductive Json where
  | null
  | bool (b : Bool)
  | num (text : String)
  | infinity (negative : Bool)
  | str (s : JsString)
  | arr (elems : List Json)
  | obj (fields : List (JsString × Json))

/-- A JavaScript value held in a state cell: `none` is `undefined`. -/
abbrev JsVal := Option Json

/-- Own-property lookup in a parsed object. -/
def lookupField : List (JsString × Json) → JsString → JsVal
  | [], _ => none
  | (k, v) :: rest, key => if k = key then some v else lookupField rest key

/-- The property read `data.key` on a value that is not `null`: an object
gives its own property, every other kind of JSON value has no property of
the names read by this program and gives `undefined`. -/
def Json.get : Json → JsString → JsVal
  | Json.obj fields, key => lookupField fields key
  | _, _ => none

/-- Whether the value is `null`, on which a property read throws a
`TypeError`. -/
def Json.isNull : Json → Bool
  | Json.null => true
  | _ => false

mutual
/-- The abstract operation `ToString` on a parsed JSON value. -/
def Json.toJsString : Json → JsString
  | Json.null => "null"
  | Json.bool b => if b then "true" else "false"
  | Json.num text => text
  | Json.infinity negative => if negative then "-Infinity" else "Infinity"
  | Json.str s => s
  | Json.arr elems => ⟨joinWithComma (Json.joinParts elems)⟩
  | Json.obj _ => "[object Object]"
/-- The pieces `Array.prototype.join` glues together: `null` gives the empty
string, any other element its `ToString`. -/
def Json.joinParts : List Json → List JsString
  | [] => []
  | Json.null :: rest => "" :: Json.joinParts rest
  | e :: rest => Json.toJsString e :: Json.joinParts rest
end

/-- The abstract operation `ToString` on a state value. -/
def toJsString : JsVal → JsString
  | none => "undefined"
  | some j => j.toJsString

/-- The abstract operation `ToPropertyKey` used by the computed key `[q]`. -/
def toPropertyKey (q : Json) : JsString := q.toJsString

mutual
/-- The value denoted by the text `JSON.stringify` writes for a parsed
value: a non-finite number is written as `null`, at any depth. -/
def Json.written : Json → Json
  | Json.infinity _ => Json.null
  | Json.arr elems => Json.arr (Json.writtenList elems)
  | Json.obj fields => Json.obj (Json.writtenFields fields)
  | j => j
/-- The elements of an array as `JSON.stringify` writes them. -/
def Json.writtenList : List Json → List Json
  | [] => []
  | e :: rest => Json.written e :: Json.writtenList rest
/-- The properties of an object as `JSON.stringify` writes them. -/
def Json.writtenFields : List (JsString × Json) → List (JsString × Json)
  | [] => []
  | (k, v) :: rest => (k, Json.written v) :: Json.writtenFields rest
end

/-- The value that the text `JSON.stringify(\x7b k1: v1, ... \x7d)` denotes: a
property whose value is `undefined` is left out, any other value is written
by `Json.written`. -/
def stringify : List (JsString × JsVal) → Json
  | fields => Json.obj (fields.filterMap fun kv => kv.2.map fun v => (kv.1, v.written))

mutual
/-- Whether React accepts the value as a child, as in `<p>\x7bq\x7d</p>`: a
plain object is refused ("Objects are not valid as a React child"), an array
is accepted when each of its elements is. -/
def Json.validChild : Json → Bool
  | Json.obj _ => false
  | Json.arr elems => Json.validChildren elems
  | _ => true
/-- Whether React accepts every value of a list as a child. -/
def Json.validChildren : List Json → Bool
  | [] => true
  | e :: rest => Json.validChild e && Json.validChildren rest
end

/-! ## State -/

/-- The `report` state cell, `\x7bhtml, pdf\x7d`. -/
structure Report where
  html : JsVal
  pdf : JsVal

/-- The six `useState` cells of `App`. The `answers` object is the list of
its own properties, each name once, in the order they were created
(JavaScript enumerates integer-like names first; nothing below depends on the
order). -/
structure State where
  step : Nat
  topic : JsString
  questions : JsVal
  answers : List (JsString × JsString)
  sessionId : JsVal
  report : Report

/-- The arguments of the six `useState` calls. -/
def initialState : State :=
  { step := 1
    topic := ""
    questions := some (Json.arr [])
    answers := []
    sessionId := some (Json.str "")
    report := { html := some (Json.str ""), pdf := some (Json.str "") } }

/-- The object `\x7b...answers, [key]: value\x7d`: the properties of `answers`
with `key` bound to `value`, an existing property keeping its place. -/
def setAnswer :
    List (JsString × JsString) → JsString → JsString → List (JsString × JsString)
  | [], key, value => [(key, value)]
  | (k, v) :: rest, key, value =>
    if k = key then (k, value) :: rest else (k, v) :: setAnswer rest key value

/-- The property read `answers[key]`. -/
def answerOf : List (JsString × JsString) → JsString → Option JsString
  | [], _ => none
  | (k, v) :: rest, key => if k = key then some v else answerOf rest key

/-- The own property names of `answers`. -/
def answerKeys (answers : List (JsString × JsString)) : List JsString :=
  answers.map Prod.fst

/-- The `answers` object as a JSON value: every property with its string. -/
def answersJson (answers : List (JsString × JsString)) : Json :=
  Json.obj (answers.map fun kv => (kv.1, Json.str kv.2))

/-! ## Remote calls -/

/-- A `POST` request with `Content-Type: application/json`; `body` is the
value denoted by the serialised text. -/
structure Request where
  url : String
  body : Json

/-- How one `fetch` followed by `res.json()` ends. -/
inductive Response where
  | fetchFault
  | jsonFault
  | parsed (data : Json)

/-- What running a handler does: the requests sent in order, the state it
leaves, and whether it ended by throwing. -/
structure Effect where
  sent : List Request
  state : State
  threw : Bool

/-- The handler `startSession`. -/
def startSession (s : State) (r : Response) : Effect :=
  let req : Request :=
    { url := "http://localhost:8000/start_session"
      body := stringify [("user_input", some (Json.str s.topic))] }
  match r with
  | Response.fetchFault => { sent := [req], state := s, threw := true }
  | Response.jsonFault => { sent := [req], state := s, threw := true }
  | Response.parsed data =>
    if data.isNull then { sent := [req], state := s, threw := true }
    else
      { sent := [req]
        state := { s with
          sessionId := data.get "session_id"
          questions := data.get "questions"
          step := 2 }
        threw := false }

/-- The handler `submitAnswers`. -/
def submitAnswers (s : State) (r1 r2 : Response) : Effect :=
  let req1 : Request :=
    { url := "http://localhost:8000/submit_answers"
      body := stringify [("session_id", s.sessionId), ("answers", some (answersJson s.answers))] }
  match r1 with
  | Response.fetchFault => { sent := [req1], state := s, threw := true }
  | Response.jsonFault => { sent := [req1], state := s, threw := true }
  | Response.parsed data =>
    if data.isNull then { sent := [req1], state := s, threw := true }
    else
      let req2 : Request :=
        { url := "http://localhost:8000/generate_report"
          body := stringify [("refined_topic", data.get "refined_topic")] }
      match r2 with
      | Response.fetchFault => { sent := [req1, req2], state := s, threw := true }
      | Response.jsonFault => { sent := [req1, req2], state := s, threw := true }
      | Response.parsed reportData =>
        if reportData.isNull then { sent := [req1, req2], state := s, threw := true }
        else
          { sent := [req1, req2]
            state := { s with
              report := { html := reportData.get "html_content", pdf := reportData.get "pdf_path" }
              step := 3 }
            threw := false }

/-! ## `encodeURIComponent` -/

/-- The code units `encodeURIComponent` copies unchanged: the ASCII word
characters and the marks `-.!~*'()`. -/
def unescapedSet : List (Fin 65536) :=
  (toUTF16 "ABCDEFGHIJKLMNOPQRSTUVWXYZabcdefghijklmnopqrstuvwxyz0123456789_-.!~*'()").units

/-- The UTF-8 transformation of a code point. -/
def utf8Octets (cp : Nat) : List Nat :=
  if cp < 0x80 then [cp]
  else if cp < 0x800 then [0xC0 + cp / 0x40, 0x80 + cp % 0x40]
  else if cp < 0x10000 then [0xE0 + cp / 0x1000, 0x80 + cp / 0x40 % 0x40, 0x80 + cp % 0x40]
  else [0xF0 + cp / 0x40000, 0x80 + cp / 0x1000 % 0x40, 0x80 + cp / 0x40 % 0x40,
        0x80 + cp % 0x40]

/-- One uppercase hexadecimal digit. -/
def hexDigit (n : Nat) : Char :=
  if n < 10 then Char.ofNat (48 + n) else Char.ofNat (55 + n)

/-- The escape `%XX` of one octet. -/
def escapeOctet (b : Nat) : List Char := ['%', hexDigit (b / 16), hexDigit (b % 16)]

/-- The escapes of a list of octets, in order. -/
def escapeOctets : List Nat → List Char
  | [] => []
  | b :: bs => escapeOctet b ++ escapeOctets bs

/-- The loop of the abstract operation `Encode` over the code units of the
argument; `none` is the `URIError` thrown at an unpaired surrogate. The
result has ASCII characters only and is given as a list of characters. -/
def encodeUnits : List (Fin 65536) → Option (List Char)
  | [] => some []
  | c :: rest =>
    if c ∈ unescapedSet then (encodeUnits rest).map fun r => Char.ofNat c.val :: r
    else if c.val < 0xD800 ∨ 0xDFFF < c.val then
      (encodeUnits rest).map fun r => escapeOctets (utf8Octets c.val) ++ r
    else if 0xDC00 ≤ c.val then none
    else
      match rest with
      | [] => none
      | d :: rest2 =>
        if 0xDC00 ≤ d.val ∧ d.val ≤ 0xDFFF then
          (encodeUnits rest2).map fun r =>
            escapeOctets
              (utf8Octets ((c.val - 0xD800) * 0x400 + (d.val - 0xDC00) + 0x10000)) ++ r
        else none

/-- The builtin `encodeURIComponent`, applied to a state value: the argument
goes through `ToString` first; `none` is the `URIError`. -/
def encodeURIComponent (v : JsVal) : Option String :=
  (encodeUnits (toJsString v).units).map String.mk

/-! ## Rendering -/

/-- The elements of the JSX that carry data or a handler. -/
inductive Element where
  | heading (text : String)
  | topicInput (value : JsString)
  | startButton
  | questionInput (index : Nat) (q : Json)
  | generateButton
  | preview (srcDoc : JsVal)
  | downloadLink (href : String)

/-- The elements produced by `questions.map((q,i)=>...)`, from index `i` on. -/
def questionInputs : Nat → List Json → List Element
  | _, [] => []
  | i, q :: qs => Element.questionInput i q :: questionInputs (i + 1) qs

/-- The `href` of the "Download PDF" anchor; `none` when evaluating the
template literal throws. -/
def downloadHref (s : State) : Option String :=
  (encodeURIComponent s.report.pdf).map fun e =>
    "http://localhost:8000/pdf_download?file_path=" ++ e

/-- The JSX returned for a state; `none` when rendering throws, in which case
React unmounts the tree and nothing is shown. Only an array has the method
`map`, and every question must be a value React accepts as a child. -/
def render (s : State) : Option (List Element) :=
  if s.step = 1 then
    some [Element.heading "Enter your research topic", Element.topicInput s.topic,
      Element.startButton]
  else if s.step = 2 then
    match s.questions with
    | some (Json.arr qs) =>
      if Json.validChildren qs then
        some (Element.heading "Clarifying Questions" :: questionInputs 0 qs
          ++ [Element.generateButton])
      else none
    | _ => none
  else if s.step = 3 then
    (downloadHref s).map fun href =>
      [Element.heading "Report Preview", Element.preview s.report.html,
        Element.downloadLink href]
  else some []

/-! ## User events -/

/-- A user event together with the responses that resolve the remote calls
it starts. -/
inductive Event where
  | typeTopic (value : JsString)
  | clickStart (r : Response)
  | typeAnswer (index : Nat) (value : JsString)
  | clickGenerate (r1 r2 : Response)

/-- Whether an element carries the handler an event triggers. -/
def Element.accepts : Element → Event → Bool
  | Element.topicInput _, Event.typeTopic _ => true
  | Element.startButton, Event.clickStart _ => true
  | Element.questionInput i _, Event.typeAnswer j _ => i == j
  | Element.generateButton, Event.clickGenerate _ _ => true
  | _, _ => false

/-- Whether the rendered UI offers the control an event needs. -/
def offered (s : State) (e : Event) : Bool :=
  match render s with
  | none => false
  | some elements => elements.any fun el => el.accepts e

/-- The state update made by the handler of an event, whatever is on
screen: `setTopic(e.target.value)`, `startSession`, the `onChange` of the
input of question number `index`, `submitAnswers`. -/
def handle (s : State) : Event → State
  | Event.typeTopic value => { s with topic := value }
  | Event.clickStart r => (startSession s r).state
  | Event.typeAnswer index value =>
    match s.questions with
    | some (Json.arr qs) =>
      match qs[index]? with
      | some q => { s with answers := setAnswer s.answers (toPropertyKey q) value }
      | none => s
    | _ => s
  | Event.clickGenerate r1 r2 => (submitAnswers s r1 r2).state

/-- The state after any sequence of handler completions. -/
def runHandlers (s : State) (events : List Event) : State :=
  events.foldl handle s

/-- One user action on the rendered UI, run to completion: an event whose
control is not on screen cannot happen and changes nothing. -/
def uiStep (s : State) (e : Event) : State :=
  if offered s e then handle s e else s

/-- The state after a sequence of user actions, each run to completion
before the next begins. -/
def uiRun (s : State) (events : List Event) : State :=
  events.foldl uiStep s

/-- The texts shown above the inputs in Clarify when every question is a
string. -/
def stringQuestions (qs : List JsString) : JsVal :=
  some (Json.arr (qs.map Json.str))

/-! ## Handlers that resume later -/

/-- The component with its suspended handlers: how many `startSession` and
`submitAnswers` calls are waiting at an `await`. -/
structure Async where
  state : State
  startsPending : Nat
  submitsPending : Nat

/-- What can happen next: a synchronous `onChange`, a click that starts a
handler (which sends its request and suspends), or a suspended handler
resuming with its responses and running its setters. -/
inductive AsyncEvent where
  | typeTopic (value : JsString)
  | typeAnswer (index : Nat) (value : JsString)
  | clickStart
  | clickGenerate
  | startSessionResumes (r : Response)
  | submitAnswersResumes (r1 r2 : Response)

/-- One event of the component with suspended handlers. A click counts only
when its button is on screen (which does not depend on the responses); a
handler resumes only if one is suspended; its setters overwrite their cells
of the state current at that moment. -/
def asyncStep (a : Async) : AsyncEvent → Async
  | AsyncEvent.typeTopic value => { a with state := uiStep a.state (Event.typeTopic value) }
  | AsyncEvent.typeAnswer index value =>
    { a with state := uiStep a.state (Event.typeAnswer index value) }
  | AsyncEvent.clickStart =>
    if offered a.state (Event.clickStart Response.fetchFault) then
      { a with startsPending := a.startsPending + 1 }
    else a
  | AsyncEvent.clickGenerate =>
    if offered a.state (Event.clickGenerate Response.fetchFault Response.fetchFault) then
      { a with submitsPending := a.submitsPending + 1 }
    else a
  | AsyncEvent.startSessionResumes r =>
    if 0 < a.startsPending then
      { a with state := (startSession a.state r).state, startsPending := a.startsPending - 1 }
    else a
  | AsyncEvent.submitAnswersResumes r1 r2 =>
    if 0 < a.submitsPending then
      { a with
        state := (submitAnswers a.state r1 r2).state
        submitsPending := a.submitsPending - 1 }
    else a

/-- The component after a sequence of events, clicks and resumptions
interleaved in any way. -/
def asyncRun (a : Async) (events : List AsyncEvent) : Async :=
  events.foldl asyncStep a

/-- The freshly mounted component: nothing suspended. -/
def initialAsync : Async := { state := initialState, startsPending := 0, submitsPending := 0 }

/-- The events of a user action whose handler runs to completion before
anything else happens. -/
def toCompletion : Event → List AsyncEvent
  | Event.typeTopic value => [AsyncEvent.typeTopic value]
  | Event.typeAnswer index value => [AsyncEvent.typeAnswer index value]
  | Event.clickStart r => [AsyncEvent.clickStart, AsyncEvent.startSessionResumes r]
  | Event.clickGenerate r1 r2 =>
    [AsyncEvent.clickGenerate, AsyncEvent.submitAnswersResumes r1 r2]

/-- The events of a sequence of user actions, each run to completion. -/
def allToCompletion : List Event → List AsyncEvent
  | [] => []
  | e :: es => toCompletion e ++ allToCompletion es

/-! ## Percent-encoding as the specification words it -/

/-- The specification's percent-encoding of one character: letters, digits
and the marks `- _ . ! ~ * ' ( )` are kept, any other character becomes the
`%XX` escapes of its UTF-8 bytes. -/
def percentEncodeChar (c : Char) : List Char :=
  if c.isAlphanum ∨ c ∈ "-_.!~*'()".data then [c]
  else escapeOctets ((String.utf8EncodeChar c).map UInt8.toNat)

/-- The specification's percent-encoding, character by character. -/
def percentEncodeChars : List Char → List Char
  | [] => []
  | c :: cs => percentEncodeChar c ++ percentEncodeChars cs

/-- The specification's percent-encoding of a path. -/
def percentEncode (p : String) : String := String.mk (percentEncodeChars p.data)

/-! ## Reading a request -/

/-- The `answers` member of the body of the first request a handler sent. -/
def sentAnswers (e : Effect) : JsVal :=
  match e.sent with
  | [] => none
  | req :: _ => req.body.get "answers"

/-- The value of the most recent edit, in a list of edits `(index, value)`
given oldest first, to an input whose question text is `key`. -/
def lastEdit (qs : List JsString) (edits : List (Nat × JsString)) (key : JsString) :
    Option JsString :=
  (edits.reverse.find? fun e => qs[e.1]? == some key).map Prod.snd

/-- The events of a list of edits `(index, value)`. -/
def editEvents (edits : List (Nat × JsString)) : List Event :=
  edits.map fun e => Event.typeAnswer e.1 e.2

/-- The `answers` object after a list of edits `(index, value)`, oldest
first, to the inputs of the string questions `qs`: an edit to an index with no
input does nothing. -/
def applyEdits (qs : List JsString) (answers : List (JsString × JsString))
    (edits : List (Nat × JsString)) : List (JsString × JsString) :=
  edits.foldl
    (fun a e =>
      match qs[e.1]? with
      | some q => setAnswer a q e.2
      | none => a)
    answers

/-! ## The end-to-end scenario of the specification -/

/-- TopicEntry with the topic typed in. -/
def scenarioTopicEntry : State := { initialState with topic := "Quantum Computing" }

/-- The start-session response of the scenario. -/
def scenarioStartData : Json :=
  Json.obj [("session_id", Json.str "abc123"),
    ("questions", Json.arr [Json.str "What aspect?", Json.str "Intended audience?"])]

/-- Clarify as entered in the scenario. -/
def scenarioClarify : State :=
  { scenarioTopicEntry with
    sessionId := some (Json.str "abc123")
    questions := stringQuestions ["What aspect?", "Intended audience?"]
    step := 2 }

/-- Clarify of the scenario after the user answered both questions. -/
def scenarioAnswered : State :=
  { scenarioClarify with
    answers := [("What aspect?", "Hardware"), ("Intended audience?", "Engineers")] }

/-- The submit-answers response of the scenario. -/
def scenarioRefinedData : Json :=
  Json.obj [("refined_topic", Json.str "Quantum Computing for Engineers")]

/-- The generate-report response of the scenario. -/
def scenarioReportData : Json :=
  Json.obj [("html_content", Json.str "<html>...</html>"), ("pdf_path", Json.str "/tmp/report.pdf")]

/-- ReportReady as reached in the scenario. -/
def scenarioReportReady : State :=
  { scenarioClarify with
    report := { html := some (Json.str "<html>...</html>"), pdf := some (Json.str "/tmp/report.pdf") }
    step := 3 }

/-- The path `a\ud800b`: an unpaired high surrogate between two letters. -/
def unpairedSurrogatePath : JsString := ⟨[0x61, 0xD800, 0x62]⟩

/-- A start-session response with the two questions "q1" and "q2". -/
def twoQuestionData : Json :=
  Json.obj [("session_id", Json.str "abc123"),
    ("questions", Json.arr [Json.str "q1", Json.str "q2"])]

/-- A start-session response with the single question "other". -/
def otherQuestionData : Json :=
  Json.obj [("session_id", Json.str "abc123"), ("questions", Json.arr [Json.str "other"])]

/-- A start-session response with no question. -/
def zeroQuestionData : Json :=
  Json.obj [("session_id", Json.str "abc123"), ("questions", Json.arr [])]

/-- A generate-report response whose `pdf_path` is `a\ud800b`. -/
def surrogateReportData : Json :=
  Json.obj [("html_content", Json.str "<html>...</html>"),
    ("pdf_path", Json.str unpairedSurrogatePath)]

/-- The state after the scenario's user actions when generate-report answers
with `surrogateReportData`. -/
def surrogateReportReady : State :=
  uiRun initialState
    [Event.typeTopic "Quantum Computing", Event.clickStart (Response.parsed scenarioStartData),
      Event.clickGenerate (Response.parsed scenarioRefinedData)
        (Response.parsed surrogateReportData)]

/-- Start is clicked twice before any response arrives; the first
`startSession` resumes with two questions, the user types "x" and "y" into
their inputs, then the second `startSession` resumes with no question. -/
def racedZeroQuestions : State :=
  (asyncRun initialAsync
    [AsyncEvent.clickStart, AsyncEvent.clickStart,
      AsyncEvent.startSessionResumes (Response.parsed twoQuestionData),
      AsyncEvent.typeAnswer 0 "x", AsyncEvent.typeAnswer 1 "y",
      AsyncEvent.startSessionResumes (Response.parsed zeroQuestionData)]).state

/-- The same race, the second `startSession` resuming with the question
"other". -/
def racedOtherQuestion : State :=
  (asyncRun initialAsync
    [AsyncEvent.clickStart, AsyncEvent.clickStart,
      AsyncEvent.startSessionResumes (Response.parsed twoQuestionData),
      AsyncEvent.typeAnswer 0 "x", AsyncEvent.typeAnswer 1 "y",
      AsyncEvent.startSessionResumes (Response.parsed otherQuestionData)]).state

/-- Clarify entered, each action run to completion, on the start-session
response `\x7b"session_id": 1e400, "questions": []\x7d`. -/
def infiniteSessionClarify : State :=
  uiRun initialState
    [Event.clickStart (Response.parsed
      (Json.obj [("session_id", Json.infinity false), ("questions", Json.arr [])]))]

/-! ## What `JSON.stringify` writes -/

theorem written_str (t : JsString) : (Json.str t).written = Json.str t := by
  simp [Json.written]

theorem writtenFields_strings (a : List (JsString × JsString)) :
    Json.writtenFields (a.map fun kv => (kv.1, Json.str kv.2))
      = a.map fun kv => (kv.1, Json.str kv.2) := by
  induction a with
  | nil => simp [Json.writtenFields]
  | cons kv rest ih => simp [Json.writtenFields, ih, Json.written]

theorem written_answersJson (a : List (JsString × JsString)) :
    (answersJson a).written = answersJson a := by
  simp [answersJson, Json.written, writtenFields_strings]

theorem get_answersJson (a : List (JsString × JsString)) (k : JsString) :
    (answersJson a).get k = (answerOf a k).map Json.str := by
  induction a with
  | nil => simp [answersJson, Json.get, lookupField, answerOf]
  | cons kv rest ih =>
    obtain ⟨k1, v1⟩ := kv
    simp only [answersJson, Json.get, List.map_cons, lookupField, answerOf] at ih ⊢
    by_cases h : k1 = k
    · simp [h]
    · simp [h, ih]

/-! ## The handlers on each kind of response -/

theorem startSession_parsed (s : State) (data : Json) (h : data.isNull = false) :
    startSession s (Response.parsed data) =
      { sent := [{ url := "http://localhost:8000/start_session"
                   body := Json.obj [("user_input", Json.str s.topic)] }]
        state := { s with
          sessionId := data.get "session_id"
          questions := data.get "questions"
          step := 2 }
        threw := false } := by
  simp [startSession, h, stringify, written_str]

theorem isNull_of_get {data : Json} {key : JsString} {v : Json} (h : data.get key = some v) :
    data.isNull = false := by
  cases data <;> simp_all [Json.get, Json.isNull]

theorem submitAnswers_parsed (s : State) (d1 d2 : Json) (h1 : d1.isNull = false)
    (h2 : d2.isNull = false) :
    submitAnswers s (Response.parsed d1) (Response.parsed d2) =
      { sent := [{ url := "http://localhost:8000/submit_answers"
                   body := stringify [("session_id", s.sessionId),
                     ("answers", some (answersJson s.answers))] },
                 { url := "http://localhost:8000/generate_report"
                   body := stringify [("refined_topic", d1.get "refined_topic")] }]
        state := { s with
          report := { html := d2.get "html_content", pdf := d2.get "pdf_path" }
          step := 3 }
        threw := false } := by
  simp [submitAnswers, h1, h2]

theorem submitAnswers_state_cases (s : State) (r1 r2 : Response) :
    (submitAnswers s r1 r2).state = s ∨
      ∃ d2 : Json, (submitAnswers s r1 r2).state =
        { s with
          report := { html := d2.get "html_content", pdf := d2.get "pdf_path" }
          step := 3 } := by
  unfold submitAnswers
  cases r1 with
  | fetchFault => exact Or.inl rfl
  | jsonFault => exact Or.inl rfl
  | parsed d1 =>
    by_cases h1 : d1.isNull = true
    · simp [h1]
    · cases r2 with
      | fetchFault => simp [h1]
      | jsonFault => simp [h1]
      | parsed d2 =>
        by_cases h2 : d2.isNull = true
        · simp [h1, h2]
        · exact Or.inr ⟨d2, by simp [h1, h2]⟩

theorem startSession_state_cases (s : State) (r : Response) :
    (startSession s r).state = s ∨
      ∃ data : Json, (startSession s r).state =
        { s with
          sessionId := data.get "session_id"
          questions := data.get "questions"
          step := 2 } := by
  unfold startSession
  cases r with
  | fetchFault => exact Or.inl rfl
  | jsonFault => exact Or.inl rfl
  | parsed data =>
    by_cases h : data.isNull = true
    · simp [h]
    · exact Or.inr ⟨data, by simp [h]⟩

theorem submitAnswers_first_request (s : State) (r1 r2 : Response) :
    ∃ rest, (submitAnswers s r1 r2).sent =
      { url := "http://localhost:8000/submit_answers"
        body := stringify [("session_id", s.sessionId),
          ("answers", some (answersJson s.answers))] } :: rest := by
  unfold submitAnswers
  cases r1 with
  | fetchFault => exact ⟨_, rfl⟩
  | jsonFault => exact ⟨_, rfl⟩
  | parsed d1 =>
    by_cases h1 : d1.isNull = true
    · simp [h1]
    · cases r2 with
      | fetchFault => simp [h1]
      | jsonFault => simp [h1]
      | parsed d2 => by_cases h2 : d2.isNull = true <;> simp [h1, h2]

theorem stringify_session_answers (sessionId : JsVal) (a : List (JsString × JsString)) :
    (stringify [("session_id", sessionId), ("answers", some (answersJson a))]).get "answers"
      = some (answersJson a) := by
  have hne : ¬ ((toUTF16 "session_id") = toUTF16 "answers") := by decide
  cases sessionId <;> simp [stringify, Json.get, lookupField, written_answersJson, hne]

theorem sentAnswers_submitAnswers (s : State) (r1 r2 : Response) :
    sentAnswers (submitAnswers s r1 r2) = some (answersJson s.answers) := by
  obtain ⟨rest, hrest⟩ := submitAnswers_first_request s r1 r2
  unfold sentAnswers
  rw [hrest]
  exact stringify_session_answers s.sessionId s.answers

/-! ## The two handlers -/

/-- C7: for every state (its topic being `t`) and every start-session
response whose `session_id` is the string `sid` and whose `questions` is the
sequence of strings `qs`, `startSession` sends the single body
`\x7buser_input: t\x7d` to start-session, stores `sessionId = sid` and
`questions = qs` in the same order, sets `step = 2`, and leaves `topic`,
`answers` and `report` as they were. -/
theorem startSession_stores_session (st : State) (data : Json) (sid : JsString)
    (qs : List JsString) (hsid : data.get "session_id" = some (Json.str sid))
    (hqs : data.get "questions" = stringQuestions qs) :
    (startSession st (Response.parsed data)).sent =
        [{ url := "http://localhost:8000/start_session"
           body := Json.obj [("user_input", Json.str st.topic)] }] ∧
      (startSession st (Response.parsed data)).threw = false ∧
      (startSession st (Response.parsed data)).state.sessionId = some (Json.str sid) ∧
      (startSession st (Response.parsed data)).state.questions = stringQuestions qs ∧
      (startSession st (Response.parsed data)).state.step = 2 ∧
      (startSession st (Response.parsed data)).state.topic = st.topic ∧
      (startSession st (Response.parsed data)).state.answers = st.answers ∧
      (startSession st (Response.parsed data)).state.report = st.report := by
  rw [startSession_parsed st data (isNull_of_get hsid), hsid, hqs]
  exact ⟨rfl, rfl, rfl, rfl, rfl, rfl, rfl, rfl⟩

/-- C7 at the scenario: topic "Quantum Computing", `session_id` "abc123" and
the two questions "What aspect?" and "Intended audience?". -/
theorem startSession_stores_session_witness :
    (scenarioStartData.get "session_id" = some (Json.str "abc123") ∧
      scenarioStartData.get "questions"
        = stringQuestions ["What aspect?", "Intended audience?"]) ∧
    ((startSession scenarioTopicEntry (Response.parsed scenarioStartData)).sent =
        [{ url := "http://localhost:8000/start_session"
           body := Json.obj [("user_input", Json.str scenarioTopicEntry.topic)] }] ∧
      (startSession scenarioTopicEntry (Response.parsed scenarioStartData)).threw = false ∧
      (startSession scenarioTopicEntry (Response.parsed scenarioStartData)).state.sessionId
        = some (Json.str "abc123") ∧
      (startSession scenarioTopicEntry (Response.parsed scenarioStartData)).state.questions
        = stringQuestions ["What aspect?", "Intended audience?"] ∧
      (startSession scenarioTopicEntry (Response.parsed scenarioStartData)).state.step = 2 ∧
      (startSession scenarioTopicEntry (Response.parsed scenarioStartData)).state.topic
        = scenarioTopicEntry.topic ∧
      (startSession scenarioTopicEntry (Response.parsed scenarioStartData)).state.answers
        = scenarioTopicEntry.answers ∧
      (startSession scenarioTopicEntry (Response.parsed scenarioStartData)).state.report
        = scenarioTopicEntry.report) :=
  ⟨⟨rfl, rfl⟩,
    startSession_stores_session scenarioTopicEntry scenarioStartData "abc123"
      ["What aspect?", "Intended audience?"] rfl rfl⟩

/-- C8: a remote call that errors changes no state cell. If the fetch or the
JSON parse of start-session faults, `startSession` leaves the state as it
was; if the fetch or the JSON parse of submit-answers faults (whatever
generate-report would have answered), or submit-answers parses and the fetch
or the JSON parse of generate-report faults, `submitAnswers` leaves the state
as it was: no report is stored and the step does not move. -/
theorem faulting_call_leaves_state (s : State) (r2 : Response) (d1 : Json) :
    (startSession s Response.fetchFault).state = s ∧
      (startSession s Response.jsonFault).state = s ∧
      (submitAnswers s Response.fetchFault r2).state = s ∧
      (submitAnswers s Response.jsonFault r2).state = s ∧
      (submitAnswers s (Response.parsed d1) Response.fetchFault).state = s ∧
      (submitAnswers s (Response.parsed d1) Response.jsonFault).state = s := by
  refine ⟨rfl, rfl, rfl, rfl, ?_, ?_⟩ <;>
    (unfold submitAnswers; by_cases h : d1.isNull = true <;> simp [h])

/-- C1, as stated, fails: a parsed response without `session_id` and
`questions`, and one with an empty `questions` sequence, both take
`startSession` from TopicEntry to `step = 2`, the first overwriting
`sessionId` and `questions` with `undefined`. -/
theorem startSession_unvalidated_counterexample :
    scenarioTopicEntry.step = 1 ∧
      scenarioTopicEntry.sessionId = some (Json.str "") ∧
      scenarioTopicEntry.questions = some (Json.arr []) ∧
      (Json.obj []).get "session_id" = none ∧ (Json.obj []).get "questions" = none ∧
      (startSession scenarioTopicEntry (Response.parsed (Json.obj []))).state.step = 2 ∧
      (startSession scenarioTopicEntry (Response.parsed (Json.obj []))).state.sessionId = none ∧
      (startSession scenarioTopicEntry (Response.parsed (Json.obj []))).state.questions = none ∧
      (startSession scenarioTopicEntry (Response.parsed
        (Json.obj [("session_id", Json.str "abc123"), ("questions", Json.arr [])]))).state.step
        = 2 :=
  ⟨rfl, rfl, rfl, rfl, rfl, rfl, rfl, rfl, rfl⟩

/-- C1, amended: from TopicEntry (`step = 1`) `startSession` reaches
`step = 2` exactly when the response parses as a JSON value other than
`null`, whatever members it has; it then stores the response's `session_id`
and `questions` as they are (`undefined` when absent) and touches no other
cell. In every other case (the fetch faults, the JSON parse faults, the body
is `null`) the whole state, `step = 1` included, is left as it was. -/
theorem startSession_reaches_clarify_iff (s : State) (r : Response) (h : s.step = 1) :
    ((startSession s r).state.step = 2 ↔
        ∃ data, r = Response.parsed data ∧ data.isNull = false) ∧
      (∀ data, r = Response.parsed data → data.isNull = false →
        (startSession s r).state =
          { s with
            sessionId := data.get "session_id"
            questions := data.get "questions"
            step := 2 }) ∧
      ((startSession s r).state.step ≠ 2 → (startSession s r).state = s) := by
  refine ⟨?_, ?_, ?_⟩
  · cases r with
    | fetchFault => simp [startSession, h]
    | jsonFault => simp [startSession, h]
    | parsed data =>
      by_cases hn : data.isNull = true
      · simp [startSession, hn, h]
      · simp [startSession, hn]
  · intro data hr hn
    rw [hr, startSession_parsed s data hn]
  · intro hne
    rcases startSession_state_cases s r with hs | ⟨data, hs⟩
    · exact hs
    · exact absurd (by rw [hs]) hne

/-- The amended C1 at the empty object: from the scenario's TopicEntry the
response `\x7b\x7d` reaches `step = 2`. -/
theorem startSession_reaches_clarify_iff_witness :
    scenarioTopicEntry.step = 1 ∧
      ((startSession scenarioTopicEntry (Response.parsed (Json.obj []))).state.step = 2 ↔
        ∃ data, Response.parsed (Json.obj []) = Response.parsed data ∧ data.isNull = false) :=
  ⟨rfl, (startSession_reaches_clarify_iff scenarioTopicEntry
    (Response.parsed (Json.obj [])) rfl).1⟩

/-! ## UTF-8 as the library encodes it -/

theorem uint8_ofNat_mod (n : Nat) : UInt8.ofNat n = UInt8.ofNat (n % 256) := by
  apply UInt8.ext
  simp [UInt8.ofNat, UInt8.toNat]

set_option maxRecDepth 100000 in
theorem continuation_byte_small :
    ∀ m, m < 256 → (UInt8.ofNat m &&& 0x3f ||| 0x80).toNat = 0x80 + m % 64 := by
  decide

set_option maxRecDepth 100000 in
theorem lead2_byte_small :
    ∀ m, m < 256 → (UInt8.ofNat m &&& 0x1f ||| 0xc0).toNat = 0xC0 + m % 32 := by
  decide

set_option maxRecDepth 100000 in
theorem lead3_byte_small :
    ∀ m, m < 256 → (UInt8.ofNat m &&& 0x0f ||| 0xe0).toNat = 0xE0 + m % 16 := by
  decide

set_option maxRecDepth 100000 in
theorem lead4_byte_small :
    ∀ m, m < 256 → (UInt8.ofNat m &&& 0x07 ||| 0xf0).toNat = 0xF0 + m % 8 := by
  decide

theorem continuation_byte (n : Nat) :
    (UInt8.ofNat n &&& 0x3f ||| 0x80).toNat = 0x80 + n % 64 := by
  rw [uint8_ofNat_mod, continuation_byte_small _ (Nat.mod_lt _ (by decide))]; omega

theorem lead2_byte (n : Nat) : (UInt8.ofNat n &&& 0x1f ||| 0xc0).toNat = 0xC0 + n % 32 := by
  rw [uint8_ofNat_mod, lead2_byte_small _ (Nat.mod_lt _ (by decide))]; omega

theorem lead3_byte (n : Nat) : (UInt8.ofNat n &&& 0x0f ||| 0xe0).toNat = 0xE0 + n % 16 := by
  rw [uint8_ofNat_mod, lead3_byte_small _ (Nat.mod_lt _ (by decide))]; omega

theorem lead4_byte (n : Nat) : (UInt8.ofNat n &&& 0x07 ||| 0xf0).toNat = 0xF0 + n % 8 := by
  rw [uint8_ofNat_mod, lead4_byte_small _ (Nat.mod_lt _ (by decide))]; omega

theorem uint32_shiftRight_6 (v : UInt32) : (v >>> 6).toNat = v.toNat / 64 := by
  show (UInt32.shiftRight v 6).toNat = _
  have h : (UInt32.mod 6 32).toBitVec.toNat = 6 := by decide
  simp [UInt32.shiftRight, UInt32.toNat, BitVec.toNat_ushiftRight, Nat.shiftRight_eq_div_pow, h]

theorem uint32_shiftRight_12 (v : UInt32) : (v >>> 12).toNat = v.toNat / 4096 := by
  show (UInt32.shiftRight v 12).toNat = _
  have h : (UInt32.mod 12 32).toBitVec.toNat = 12 := by decide
  simp [UInt32.shiftRight, UInt32.toNat, BitVec.toNat_ushiftRight, Nat.shiftRight_eq_div_pow, h]

theorem uint32_shiftRight_18 (v : UInt32) : (v >>> 18).toNat = v.toNat / 262144 := by
  show (UInt32.shiftRight v 18).toNat = _
  have h : (UInt32.mod 18 32).toBitVec.toNat = 18 := by decide
  simp [UInt32.shiftRight, UInt32.toNat, BitVec.toNat_ushiftRight, Nat.shiftRight_eq_div_pow, h]

theorem uint32_le_ofNat (v : UInt32) (k : Nat) (hk : k < 4294967296) :
    v ≤ UInt32.ofNat k ↔ v.toNat ≤ k := by
  simp [UInt32.le_def, BitVec.le_def, UInt32.toNat, UInt32.ofNat, Nat.mod_eq_of_lt hk]

theorem char_toNat_range (c : Char) :
    c.toNat < 0xD800 ∨ (0xDFFF < c.toNat ∧ c.toNat < 0x110000) := c.valid

/-- The UTF-8 transformation used by `encodeURIComponent` gives, on every
character, the bytes of the library's UTF-8 encoder. -/
theorem utf8Octets_eq (c : Char) :
    utf8Octets c.toNat = (String.utf8EncodeChar c).map UInt8.toNat := by
  have hv := char_toNat_range c
  unfold utf8Octets String.utf8EncodeChar
  have e1 : (c.val ≤ 0x7f) ↔ c.toNat < 0x80 := by
    rw [show (0x7f : UInt32) = UInt32.ofNat 0x7f from rfl, uint32_le_ofNat _ _ (by decide)]
    show c.toNat ≤ _ ↔ _
    omega
  have e2 : (c.val ≤ 0x7ff) ↔ c.toNat < 0x800 := by
    rw [show (0x7ff : UInt32) = UInt32.ofNat 0x7ff from rfl, uint32_le_ofNat _ _ (by decide)]
    show c.toNat ≤ _ ↔ _
    omega
  have e3 : (c.val ≤ 0xffff) ↔ c.toNat < 0x10000 := by
    rw [show (0xffff : UInt32) = UInt32.ofNat 0xffff from rfl, uint32_le_ofNat _ _ (by decide)]
    show c.toNat ≤ _ ↔ _
    omega
  simp only [e1, e2, e3]
  have t8 : ∀ v : UInt32, v.toUInt8 = UInt8.ofNat v.toNat := fun _ => rfl
  have hc : c.val.toNat = c.toNat := rfl
  split
  · have h8 : (UInt8.ofNat c.toNat).toNat = c.toNat % 256 := by
      simp [UInt8.ofNat, UInt8.toNat]
    simp only [List.map, t8, hc, h8]
    congr 1
    omega
  · split
    · simp only [List.map, t8, lead2_byte, continuation_byte, uint32_shiftRight_6, hc]
      (congr 2; omega)
    · split
      · simp only [List.map, t8, lead3_byte, continuation_byte, uint32_shiftRight_6,
          uint32_shiftRight_12, hc]
        (congr 2; omega)
      · simp only [List.map, t8, lead4_byte, continuation_byte, uint32_shiftRight_6,
          uint32_shiftRight_12, uint32_shiftRight_18, hc]
        (congr 2; omega)

/-! ## The download link -/

theorem unescapedSet_vals :
    unescapedSet.map Fin.val =
      [65, 66, 67, 68, 69, 70, 71, 72, 73, 74, 75, 76, 77, 78, 79, 80, 81, 82, 83, 84, 85,
        86, 87, 88, 89, 90, 97, 98, 99, 100, 101, 102, 103, 104, 105, 106, 107, 108, 109,
        110, 111, 112, 113, 114, 115, 116, 117, 118, 119, 120, 121, 122, 48, 49, 50, 51, 52,
        53, 54, 55, 56, 57, 95, 45, 46, 33, 126, 42, 39, 40, 41] := by
  decide

theorem mem_unescapedSet_val (u : Fin 65536) :
    u ∈ unescapedSet ↔ u.val ∈ unescapedSet.map Fin.val := by
  rw [List.mem_map_of_injective Fin.val_injective]

theorem unescapedSet_lt (u : Fin 65536) (h : u ∈ unescapedSet) : u.val < 128 := by
  rw [mem_unescapedSet_val, unescapedSet_vals] at h
  revert h
  generalize u.val = n
  intro h
  simp only [List.mem_cons, List.mem_singleton, List.not_mem_nil, or_false] at h
  omega

theorem unescapedSet_ascii :
    ∀ n, n < 128 → (n ∈ unescapedSet.map Fin.val ↔
      ((65 ≤ n ∧ n ≤ 90) ∨ (97 ≤ n ∧ n ≤ 122) ∨ (48 ≤ n ∧ n ≤ 57)) ∨
        n ∈ [45, 95, 46, 33, 126, 42, 39, 40, 41]) := by
  rw [unescapedSet_vals]; decide

theorem isAlphanum_iff (c : Char) :
    c.isAlphanum = true ↔
      (65 ≤ c.toNat ∧ c.toNat ≤ 90) ∨ (97 ≤ c.toNat ∧ c.toNat ≤ 122) ∨
        (48 ≤ c.toNat ∧ c.toNat ≤ 57) := by
  simp [Char.isAlphanum, Char.isAlpha, Char.isUpper, Char.isLower, Char.isDigit, Char.toNat,
    UInt32.le_def]
  simp only [BitVec.le_def, BitVec.toNat_ofNat, UInt32.toNat]
  norm_num
  tauto

theorem marks_toNat :
    ("-_.!~*'()".data).map Char.toNat = [45, 95, 46, 33, 126, 42, 39, 40, 41] := by
  decide

theorem char_toNat_injective : Function.Injective Char.toNat := by
  intro a b h
  apply Char.ext
  apply UInt32.ext
  exact h

theorem mem_marks (c : Char) :
    c ∈ "-_.!~*'()".data ↔ c.toNat ∈ [45, 95, 46, 33, 126, 42, 39, 40, 41] := by
  rw [← marks_toNat, List.mem_map_of_injective char_toNat_injective]

theorem mem_unescapedSet_iff (c : Char) (h : c.toNat < 0x10000) :
    (⟨c.toNat, h⟩ : Fin 65536) ∈ unescapedSet ↔ (c.isAlphanum ∨ c ∈ "-_.!~*'()".data) := by
  rw [isAlphanum_iff, mem_marks]
  by_cases h128 : c.toNat < 128
  · rw [mem_unescapedSet_val]
    exact unescapedSet_ascii _ h128
  · constructor
    · intro hm; exact absurd (unescapedSet_lt _ hm) h128
    · intro hm
      simp only [List.mem_cons, List.mem_singleton, List.not_mem_nil, or_false] at hm
      exfalso
      omega

theorem not_kept_of_large (c : Char) (h : ¬ c.toNat < 128) :
    ¬ (c.isAlphanum ∨ c ∈ "-_.!~*'()".data) := by
  rw [isAlphanum_iff, mem_marks]
  intro hm
  simp only [List.mem_cons, List.mem_singleton, List.not_mem_nil, or_false] at hm
  omega

theorem encodeUnits_char (c : Char) (rest : List (Fin 65536)) :
    encodeUnits (utf16Units c ++ rest) =
      (encodeUnits rest).map fun r => percentEncodeChar c ++ r := by
  have hr := char_toNat_range c
  unfold utf16Units
  split
  · rename_i hlt
    simp only [List.singleton_append]
    rw [encodeUnits.eq_def]
    by_cases hk : (⟨c.toNat, hlt⟩ : Fin 65536) ∈ unescapedSet
    · have hk2 := (mem_unescapedSet_iff c hlt).1 hk
      simp only [hk, if_true, percentEncodeChar, hk2, Char.ofNat_toNat, List.singleton_append]
    · have hk2 : ¬ (c.isAlphanum ∨ c ∈ "-_.!~*'()".data) :=
        fun h => hk ((mem_unescapedSet_iff c hlt).2 h)
      have h3 : c.toNat < 0xD800 ∨ 0xDFFF < c.toNat := by omega
      simp only [hk, if_false, h3, if_true, percentEncodeChar, hk2, utf8Octets_eq]
  · rename_i hge
    have hk2 : ¬ (c.isAlphanum ∨ c ∈ "-_.!~*'()".data) := not_kept_of_large c (by omega)
    simp only [List.cons_append, List.nil_append]
    rw [encodeUnits.eq_def]
    have hhi : ∀ hb, ¬ ((⟨0xD800 + (c.toNat - 0x10000) / 0x400, hb⟩ : Fin 65536)
        ∈ unescapedSet) := fun hb h => by
      have := unescapedSet_lt _ h
      simp only at this
      omega
    have h1 : ¬ (0xD800 + (c.toNat - 0x10000) / 0x400 < 0xD800 ∨
        0xDFFF < 0xD800 + (c.toNat - 0x10000) / 0x400) := by omega
    have h2 : ¬ (0xDC00 ≤ 0xD800 + (c.toNat - 0x10000) / 0x400) := by omega
    have h3 : 0xDC00 ≤ 0xDC00 + (c.toNat - 0x10000) % 0x400 ∧
        0xDC00 + (c.toNat - 0x10000) % 0x400 ≤ 0xDFFF := by omega
    have h4 : (0xD800 + (c.toNat - 0x10000) / 0x400 - 0xD800) * 0x400 +
        (0xDC00 + (c.toNat - 0x10000) % 0x400 - 0xDC00) + 0x10000 = c.toNat := by omega
    simp only [hhi, if_false, h1, h2, h3, and_self, if_true, h4, percentEncodeChar, hk2,
      utf8Octets_eq]

theorem encodeUnits_chars (cs : List Char) :
    encodeUnits (unitsOfChars cs) = some (percentEncodeChars cs) := by
  induction cs with
  | nil => simp [unitsOfChars, encodeUnits, percentEncodeChars]
  | cons c cs ih => rw [unitsOfChars, encodeUnits_char, ih]; rfl

theorem encodeURIComponent_str (p : String) :
    encodeURIComponent (some (Json.str p)) = some (percentEncode p) := by
  simp [encodeURIComponent, toJsString, Json.toJsString, toUTF16, encodeUnits_chars,
    percentEncode]

theorem char_toNat_ofNat (n : Nat) (h : n < 0xD800 ∨ (0xDFFF < n ∧ n < 0x110000)) :
    (Char.ofNat n).toNat = n := by
  have hv : n.isValidChar := h
  unfold Char.ofNat
  rw [dif_pos hv]
  simp [Char.ofNatAux, Char.toNat, UInt32.toNat]

theorem utf16Units_bmp (u : Fin 65536) (h : u.val < 0xD800 ∨ 0xDFFF < u.val) :
    utf16Units (Char.ofNat u.val) = [u] := by
  have hlt := u.isLt
  have hn : (Char.ofNat u.val).toNat = u.val := char_toNat_ofNat _ (by omega)
  unfold utf16Units
  rw [dif_pos (by rw [hn]; exact hlt)]
  simp only [hn]

theorem utf16Units_pair (c d : Fin 65536) (hc : 0xD800 ≤ c.val ∧ c.val < 0xDC00)
    (hd : 0xDC00 ≤ d.val ∧ d.val ≤ 0xDFFF) :
    utf16Units (Char.ofNat ((c.val - 0xD800) * 0x400 + (d.val - 0xDC00) + 0x10000))
      = [c, d] := by
  have hn : (Char.ofNat ((c.val - 0xD800) * 0x400 + (d.val - 0xDC00) + 0x10000)).toNat
      = (c.val - 0xD800) * 0x400 + (d.val - 0xDC00) + 0x10000 :=
    char_toNat_ofNat _ (by omega)
  unfold utf16Units
  rw [dif_neg (by rw [hn]; omega)]
  simp only [hn]
  refine List.cons_eq_cons.2 ⟨Fin.ext ?_, List.cons_eq_cons.2 ⟨Fin.ext ?_, rfl⟩⟩
  · show 0xD800 + ((c.val - 0xD800) * 0x400 + (d.val - 0xDC00) + 0x10000 - 0x10000) / 0x400
      = c.val
    omega
  · show 0xDC00 + ((c.val - 0xD800) * 0x400 + (d.val - 0xDC00) + 0x10000 - 0x10000) % 0x400
      = d.val
    omega

theorem encodeUnits_wellFormed (n : Nat) :
    ∀ u : List (Fin 65536), u.length ≤ n → encodeUnits u ≠ none →
      ∃ cs : List Char, unitsOfChars cs = u := by
  induction n with
  | zero =>
    intro u hlen _
    have : u = [] := List.eq_nil_of_length_eq_zero (Nat.le_zero.1 hlen)
    exact ⟨[], by rw [this]; rfl⟩
  | succ n ih =>
    intro u hlen hsome
    cases u with
    | nil => exact ⟨[], rfl⟩
    | cons c rest =>
      have hrest : rest.length ≤ n := by simpa using hlen
      rw [encodeUnits.eq_def] at hsome
      simp only at hsome
      by_cases hk : c ∈ unescapedSet
      · have hc128 := unescapedSet_lt c hk
        simp only [hk, if_true] at hsome
        have hr : encodeUnits rest ≠ none := fun h => hsome (by rw [h]; rfl)
        obtain ⟨cs, hcs⟩ := ih rest hrest hr
        refine ⟨Char.ofNat c.val :: cs, ?_⟩
        rw [unitsOfChars, utf16Units_bmp c (by omega), hcs]
        rfl
      · simp only [hk, if_false] at hsome
        by_cases hb : c.val < 0xD800 ∨ 0xDFFF < c.val
        · simp only [hb, if_true] at hsome
          have hr : encodeUnits rest ≠ none := fun h => hsome (by rw [h]; rfl)
          obtain ⟨cs, hcs⟩ := ih rest hrest hr
          refine ⟨Char.ofNat c.val :: cs, ?_⟩
          rw [unitsOfChars, utf16Units_bmp c hb, hcs]
          rfl
        · simp only [hb, if_false] at hsome
          by_cases hlow : 0xDC00 ≤ c.val
          · simp [hlow] at hsome
          · simp only [hlow, if_false] at hsome
            cases rest with
            | nil => simp at hsome
            | cons d rest2 =>
              simp only at hsome
              by_cases hd : 0xDC00 ≤ d.val ∧ d.val ≤ 0xDFFF
              · simp only [hd, and_self, if_true] at hsome
                have hr : encodeUnits rest2 ≠ none := fun h => hsome (by rw [h]; rfl)
                have hrest2 : rest2.length ≤ n := by
                  simp only [List.length_cons] at hrest
                  omega
                obtain ⟨cs, hcs⟩ := ih rest2 hrest2 hr
                refine ⟨Char.ofNat ((c.val - 0xD800) * 0x400 + (d.val - 0xDC00) + 0x10000)
                  :: cs, ?_⟩
                rw [unitsOfChars, utf16Units_pair c d (by omega) hd, hcs]
                rfl
              · simp [hd] at hsome

theorem encodeURIComponent_eq_none_iff (u : JsString) :
    encodeURIComponent (some (Json.str u)) = none ↔ ¬ ∃ p : String, u = toUTF16 p := by
  constructor
  · rintro h ⟨p, rfl⟩
    rw [encodeURIComponent_str] at h
    exact absurd h (by simp)
  · intro h
    by_contra hne
    apply h
    have hu : encodeUnits u.units ≠ none := by
      intro h0
      apply hne
      simp [encodeURIComponent, toJsString, Json.toJsString, h0]
    obtain ⟨cs, hcs⟩ := encodeUnits_wellFormed u.units.length u.units (Nat.le_refl _) hu
    refine ⟨String.mk cs, ?_⟩
    cases u with
    | mk units => simp only [toUTF16, JsString.mk.injEq]; exact hcs.symm

/-- C3, as stated, fails: after the scenario's user actions, when
generate-report answers with the `pdf_path` `a\ud800b`, the state is
ReportReady with that path stored, `encodeURIComponent` throws on it, and
the view throws instead of showing a link. -/
theorem download_link_unpaired_surrogate_counterexample :
    surrogateReportReady.step = 3 ∧
      surrogateReportReady.report.pdf = some (Json.str ⟨[0x61, 0xD800, 0x62]⟩) ∧
      encodeURIComponent surrogateReportReady.report.pdf = none ∧
      render surrogateReportReady = none :=
  ⟨rfl, rfl, rfl, rfl⟩

/-- C3, amended: in ReportReady, when the stored PDF path is a well-formed
string, that is the code units of a text `p`, the view is the heading, the
preview of `report.html` and a download link whose target is exactly
"http://localhost:8000/pdf_download?file_path=" followed by the
percent-encoding of `p` (letters, digits and `- _ . ! ~ * ' ( )` kept, any
other character replaced by the `%XX` escapes of its UTF-8 bytes); when the
stored path `u` is a string that is not well-formed (it holds an unpaired
surrogate), rendering throws and no link is shown. The encoding of
"/tmp/report.pdf" is "%2Ftmp%2Freport.pdf"; a path with two-, three- and
four-byte characters is written out as well. -/
theorem download_link_percent_encoded (s : State) (p : String) (u : JsString)
    (hstep : s.step = 3) :
    (s.report.pdf = some (Json.str p) →
      render s = some [Element.heading "Report Preview", Element.preview s.report.html,
        Element.downloadLink
          ("http://localhost:8000/pdf_download?file_path=" ++ percentEncode p)]) ∧
      (s.report.pdf = some (Json.str u) → (¬ ∃ q : String, u = toUTF16 q) →
        render s = none) ∧
      percentEncode "/tmp/report.pdf" = "%2Ftmp%2Freport.pdf" ∧
      percentEncode "résumé €5 😀.pdf"
        = "r%C3%A9sum%C3%A9%20%E2%82%AC5%20%F0%9F%98%80.pdf" ∧
      encodeURIComponent (some (Json.str "résumé €5 😀.pdf"))
        = some "r%C3%A9sum%C3%A9%20%E2%82%AC5%20%F0%9F%98%80.pdf" := by
  refine ⟨?_, ?_, by decide, by decide, by decide⟩
  · intro hpdf
    simp [render, hstep, downloadHref, hpdf, encodeURIComponent_str]
  · intro hpdf hbad
    have hnone := (encodeURIComponent_eq_none_iff u).2 hbad
    simp [render, hstep, downloadHref, hpdf, hnone]

/-- The amended C3 at the scenario's ReportReady state, whose path is
"/tmp/report.pdf", and at the state whose path is `a\ud800b`. -/
theorem download_link_percent_encoded_witness :
    (scenarioReportReady.step = 3 ∧
      scenarioReportReady.report.pdf = some (Json.str "/tmp/report.pdf") ∧
      surrogateReportReady.step = 3 ∧
      surrogateReportReady.report.pdf = some (Json.str unpairedSurrogatePath) ∧
      ¬ ∃ q : String, unpairedSurrogatePath = toUTF16 q) ∧
    render scenarioReportReady =
      some [Element.heading "Report Preview", Element.preview (some (Json.str "<html>...</html>")),
        Element.downloadLink
          "http://localhost:8000/pdf_download?file_path=%2Ftmp%2Freport.pdf"] ∧
    render surrogateReportReady = none :=
  ⟨⟨rfl, rfl, rfl, rfl, (encodeURIComponent_eq_none_iff unpairedSurrogatePath).1 rfl⟩,
    ((download_link_percent_encoded scenarioReportReady "/tmp/report.pdf" "" rfl).1 rfl).trans
      (by rw [(download_link_percent_encoded scenarioReportReady "/tmp/report.pdf" ""
            rfl).2.2.1]
          rfl),
    (download_link_percent_encoded surrogateReportReady "" unpairedSurrogatePath rfl).2.1 rfl
      ((encodeURIComponent_eq_none_iff unpairedSurrogatePath).1 rfl)⟩

/-! ## Which controls are on screen -/

theorem accepts_questionInput_typeAnswer (k : Nat) (q : Json) (i : Nat) (v : JsString) :
    (Element.questionInput k q).accepts (Event.typeAnswer i v) = (k == i) := rfl

theorem accepts_questionInput_other (k : Nat) (q : Json) (e : Event)
    (h : ∀ i v, e ≠ Event.typeAnswer i v) : (Element.questionInput k q).accepts e = false := by
  cases e with
  | typeAnswer i v => exact absurd rfl (h i v)
  | typeTopic v => rfl
  | clickStart r => rfl
  | clickGenerate r1 r2 => rfl

theorem questionInputs_any_typeAnswer (qs : List Json) (k i : Nat) (v : JsString) :
    (questionInputs k qs).any (fun el => el.accepts (Event.typeAnswer i v)) = true ↔
      k ≤ i ∧ i < k + qs.length := by
  induction qs generalizing k with
  | nil => simp [questionInputs]
  | cons q qs ih =>
    simp only [questionInputs, List.any_cons, Bool.or_eq_true, ih,
      accepts_questionInput_typeAnswer, beq_iff_eq, List.length_cons]
    omega

theorem questionInputs_any_other (qs : List Json) (k : Nat) (e : Event)
    (h : ∀ i v, e ≠ Event.typeAnswer i v) :
    (questionInputs k qs).any (fun el => el.accepts e) = false := by
  induction qs generalizing k with
  | nil => simp [questionInputs]
  | cons q qs ih =>
    simp only [questionInputs, List.any_cons, ih, Bool.or_false,
      accepts_questionInput_other k q e h]

theorem validChildren_strings (qs : List JsString) :
    Json.validChildren (qs.map Json.str) = true := by
  induction qs with
  | nil => rfl
  | cons q qs ih => simp [Json.validChildren, Json.validChild, ih]

theorem validChildren_of_object (qs : List Json) (fields : List (JsString × Json))
    (h : Json.obj fields ∈ qs) : Json.validChildren qs = false := by
  induction qs with
  | nil => exact absurd h (by simp)
  | cons x xs ih =>
    rcases List.mem_cons.1 h with h1 | h1
    · rw [← h1]
      simp [Json.validChildren, Json.validChild]
    · simp [Json.validChildren, ih h1]

theorem render_step2 (s : State) (qs : List Json) (h : s.step = 2)
    (hq : s.questions = some (Json.arr qs)) (hv : Json.validChildren qs = true) :
    render s = some (Element.heading "Clarifying Questions" :: questionInputs 0 qs
      ++ [Element.generateButton]) := by
  simp [render, h, hq, hv]

theorem render_step2_none (s : State) (h : s.step = 2)
    (hq : ∀ qs, s.questions = some (Json.arr qs) → Json.validChildren qs = false) :
    render s = none := by
  unfold render
  simp only [h]
  cases hs : s.questions with
  | none => simp
  | some j =>
    cases j with
    | arr qs => simp [hq qs hs]
    | null => simp
    | bool b => simp
    | num t => simp
    | infinity n => simp
    | str t => simp
    | obj fs => simp

theorem offered_step3 (s : State) (e : Event) (h : s.step = 3) : offered s e = false := by
  unfold offered render
  simp only [h]
  cases hd : downloadHref s with
  | none => simp
  | some href => cases e <;> simp [Element.accepts]

theorem offered_step_other (s : State) (e : Event) (h1 : s.step ≠ 1) (h2 : s.step ≠ 2) :
    offered s e = false := by
  by_cases h3 : s.step = 3
  · exact offered_step3 s e h3
  · simp [offered, render, h1, h2, h3]

theorem offered_step1 (s : State) (e : Event) (h : s.step = 1) :
    offered s e = true ↔ (∃ v, e = Event.typeTopic v) ∨ (∃ r, e = Event.clickStart r) := by
  unfold offered render
  cases e <;> simp [h, Element.accepts]

theorem offered_typeAnswer (s : State) (qs : List Json) (i : Nat) (v : JsString)
    (h : s.step = 2) (hq : s.questions = some (Json.arr qs))
    (hv : Json.validChildren qs = true) :
    offered s (Event.typeAnswer i v) = decide (i < qs.length) := by
  unfold offered
  rw [render_step2 s qs h hq hv]
  simp only [List.any_cons, List.any_append, List.any_nil, Bool.or_false]
  rw [Bool.eq_iff_iff, Bool.or_eq_true, Bool.or_eq_true, questionInputs_any_typeAnswer]
  simp [Element.accepts]

theorem offered_clickGenerate (s : State) (qs : List Json) (r1 r2 : Response)
    (h : s.step = 2) (hq : s.questions = some (Json.arr qs))
    (hv : Json.validChildren qs = true) :
    offered s (Event.clickGenerate r1 r2) = true := by
  unfold offered
  rw [render_step2 s qs h hq hv]
  simp [Element.accepts]

theorem offered_noRender (s : State) (e : Event) (h : s.step = 2)
    (hq : ∀ qs, s.questions = some (Json.arr qs) → Json.validChildren qs = false) :
    offered s e = false := by
  unfold offered
  rw [render_step2_none s h hq]

theorem offered_step2_other (s : State) (e : Event) (h : s.step = 2)
    (h1 : ∀ i v, e ≠ Event.typeAnswer i v) (h2 : ∀ r1 r2, e ≠ Event.clickGenerate r1 r2) :
    offered s e = false := by
  by_cases hq : ∃ qs, s.questions = some (Json.arr qs) ∧ Json.validChildren qs = true
  · obtain ⟨qs, hq, hv⟩ := hq
    unfold offered
    rw [render_step2 s qs h hq hv]
    simp only [List.any_cons, List.any_append, List.any_nil, Bool.or_false,
      questionInputs_any_other qs 0 e h1]
    cases e with
    | typeAnswer i v => exact absurd rfl (h1 i v)
    | clickGenerate r1 r2 => exact absurd rfl (h2 r1 r2)
    | typeTopic v => rfl
    | clickStart r => rfl
  · refine offered_noRender s e h ?_
    intro qs hqs
    cases hv : Json.validChildren qs with
    | false => rfl
    | true => exact absurd ⟨qs, hqs, hv⟩ hq

theorem offered_clickStart_any (s : State) (r r2 : Response) :
    offered s (Event.clickStart r) = offered s (Event.clickStart r2) := by
  have h : (fun el : Element => el.accepts (Event.clickStart r))
      = fun el => el.accepts (Event.clickStart r2) := by
    funext el
    cases el <;> rfl
  unfold offered
  rw [h]

theorem offered_clickGenerate_any (s : State) (r1 r2 r3 r4 : Response) :
    offered s (Event.clickGenerate r1 r2) = offered s (Event.clickGenerate r3 r4) := by
  have h : (fun el : Element => el.accepts (Event.clickGenerate r1 r2))
      = fun el => el.accepts (Event.clickGenerate r3 r4) := by
    funext el
    cases el <;> rfl
  unfold offered
  rw [h]

/-! ## One user action -/

theorem handle_typeAnswer (s : State) (qs : List Json) (i : Nat) (v : JsString) (q : Json)
    (hq : s.questions = some (Json.arr qs)) (hi : qs[i]? = some q) :
    handle s (Event.typeAnswer i v) =
      { s with answers := setAnswer s.answers (toPropertyKey q) v } := by
  simp only [handle, hq, hi]

theorem uiStep_cases (s : State) (e : Event) :
    uiStep s e = s ∨
      (s.step = 1 ∧ ∃ v, uiStep s e = { s with topic := v }) ∨
      (s.step = 1 ∧ ∃ data : Json, uiStep s e =
        { s with
          sessionId := data.get "session_id"
          questions := data.get "questions"
          step := 2 }) ∨
      (s.step = 2 ∧ ∃ qs i v q, s.questions = some (Json.arr qs) ∧ qs[i]? = some q ∧
        e = Event.typeAnswer i v ∧
        uiStep s e = { s with answers := setAnswer s.answers (toPropertyKey q) v }) ∨
      (s.step = 2 ∧ ∃ d2 : Json, uiStep s e =
        { s with
          report := { html := d2.get "html_content", pdf := d2.get "pdf_path" }
          step := 3 }) := by
  by_cases ho : offered s e = true
  · have hu : uiStep s e = handle s e := by simp [uiStep, ho]
    by_cases h1 : s.step = 1
    · rcases (offered_step1 s e h1).1 ho with ⟨v, rfl⟩ | ⟨r, rfl⟩
      · exact Or.inr (Or.inl ⟨h1, v, hu⟩)
      · rcases startSession_state_cases s r with hs | ⟨data, hs⟩
        · exact Or.inl (hu.trans hs)
        · exact Or.inr (Or.inr (Or.inl ⟨h1, data, hu.trans hs⟩))
    · by_cases h2 : s.step = 2
      · by_cases hq : ∃ qs, s.questions = some (Json.arr qs) ∧ Json.validChildren qs = true
        · obtain ⟨qs, hq, hv⟩ := hq
          cases e with
          | typeTopic v =>
            rw [offered_step2_other s _ h2 (by simp) (by simp)] at ho
            exact absurd ho (by simp)
          | clickStart r =>
            rw [offered_step2_other s _ h2 (by simp) (by simp)] at ho
            exact absurd ho (by simp)
          | typeAnswer i v =>
            rw [offered_typeAnswer s qs i v h2 hq hv, decide_eq_true_iff] at ho
            have hget : qs[i]? = some (qs.get ⟨i, ho⟩) := by
              simp [List.getElem?_eq_getElem ho]
            exact Or.inr (Or.inr (Or.inr (Or.inl ⟨h2, qs, i, v, _, hq, hget, rfl,
              hu.trans (handle_typeAnswer s qs i v _ hq hget)⟩)))
          | clickGenerate r1 r2 =>
            rcases submitAnswers_state_cases s r1 r2 with hs | ⟨d2, hs⟩
            · exact Or.inl (hu.trans hs)
            · exact Or.inr (Or.inr (Or.inr (Or.inr ⟨h2, d2, hu.trans hs⟩)))
        · have hno : ∀ qs, s.questions = some (Json.arr qs) →
              Json.validChildren qs = false := by
            intro qs hqs
            cases hv : Json.validChildren qs with
            | false => rfl
            | true => exact absurd ⟨qs, hqs, hv⟩ hq
          rw [offered_noRender s e h2 hno] at ho
          exact absurd ho (by simp)
      · rw [offered_step_other s e h1 h2] at ho
        exact absurd ho (by simp)
  · exact Or.inl (by simp [uiStep, ho])

theorem uiStep_step_le (s : State) (e : Event) : s.step ≤ (uiStep s e).step := by
  rcases uiStep_cases s e with h | ⟨h1, v, h⟩ | ⟨h1, d, h⟩ | ⟨h2, qs, i, v, q, _, _, _, h⟩ |
      ⟨h2, d, h⟩ <;> rw [h] <;> (try simp) <;> (try omega)

theorem uiRun_step_le (events : List Event) (s : State) : s.step ≤ (uiRun s events).step := by
  induction events generalizing s with
  | nil => exact Nat.le_refl _
  | cons e es ih => exact Nat.le_trans (uiStep_step_le s e) (ih (uiStep s e))

theorem uiStep_step3 (s : State) (e : Event) (h : s.step = 3) : uiStep s e = s := by
  simp [uiStep, offered_step3 s e h]

theorem uiRun_step3 (events : List Event) (s : State) (h : s.step = 3) :
    uiRun s events = s := by
  induction events with
  | nil => rfl
  | cons e es ih =>
    show uiRun (uiStep s e) es = s
    rw [uiStep_step3 s e h]
    exact ih

theorem uiRun_append (s : State) (es more : List Event) :
    uiRun s (es ++ more) = uiRun (uiRun s es) more := by
  simp [uiRun, List.foldl_append]

theorem handle_step (s : State) (e : Event) :
    (handle s e).step = s.step ∨ (handle s e).step = 2 ∨ (handle s e).step = 3 := by
  cases e with
  | typeTopic v => exact Or.inl rfl
  | clickStart r =>
    rcases startSession_state_cases s r with hs | ⟨data, hs⟩
    · exact Or.inl (by show (startSession s r).state.step = _; rw [hs])
    · exact Or.inr (Or.inl (by show (startSession s r).state.step = _; rw [hs]))
  | typeAnswer i v =>
    refine Or.inl ?_
    simp only [handle]
    split
    · split <;> rfl
    · rfl
  | clickGenerate r1 r2 =>
    rcases submitAnswers_state_cases s r1 r2 with hs | ⟨d2, hs⟩
    · exact Or.inl (by show (submitAnswers s r1 r2).state.step = _; rw [hs])
    · exact Or.inr (Or.inr (by show (submitAnswers s r1 r2).state.step = _; rw [hs]))

theorem runHandlers_step (events : List Event) (s : State)
    (h : s.step = 1 ∨ s.step = 2 ∨ s.step = 3) :
    (runHandlers s events).step = 1 ∨ (runHandlers s events).step = 2 ∨
      (runHandlers s events).step = 3 := by
  induction events generalizing s with
  | nil => exact h
  | cons e es ih =>
    apply ih (handle s e)
    rcases handle_step s e with h' | h' | h'
    · rw [h']; exact h
    · exact Or.inr (Or.inl h')
    · exact Or.inr (Or.inr h')

/-! ## Running every handler to completion -/

theorem asyncStep_toCompletion (s : State) (e : Event) :
    asyncRun { state := s, startsPending := 0, submitsPending := 0 } (toCompletion e)
      = { state := uiStep s e, startsPending := 0, submitsPending := 0 } := by
  cases e with
  | typeTopic v => rfl
  | typeAnswer i v => rfl
  | clickStart r =>
    by_cases ho : offered s (Event.clickStart r) = true
    · have ho2 : offered s (Event.clickStart Response.fetchFault) = true := by
        rw [offered_clickStart_any s _ r]; exact ho
      simp [asyncRun, toCompletion, asyncStep, ho2, uiStep, ho, handle]
    · have ho2 : ¬ offered s (Event.clickStart Response.fetchFault) = true := by
        rw [offered_clickStart_any s _ r]; exact ho
      simp [asyncRun, toCompletion, asyncStep, ho2, uiStep, ho]
  | clickGenerate r1 r2 =>
    by_cases ho : offered s (Event.clickGenerate r1 r2) = true
    · have ho2 : offered s (Event.clickGenerate Response.fetchFault Response.fetchFault)
          = true := by
        rw [offered_clickGenerate_any s _ _ r1 r2]; exact ho
      simp [asyncRun, toCompletion, asyncStep, ho2, uiStep, ho, handle]
    · have ho2 : ¬ offered s (Event.clickGenerate Response.fetchFault Response.fetchFault)
          = true := by
        rw [offered_clickGenerate_any s _ _ r1 r2]; exact ho
      simp [asyncRun, toCompletion, asyncStep, ho2, uiStep, ho]

/-- A run in which each handler resumes right after its click, before any
other event, is a run of `uiRun`. -/
theorem asyncRun_allToCompletion (events : List Event) (s : State) :
    asyncRun { state := s, startsPending := 0, submitsPending := 0 } (allToCompletion events)
      = { state := uiRun s events, startsPending := 0, submitsPending := 0 } := by
  induction events generalizing s with
  | nil => rfl
  | cons e es ih =>
    show asyncRun _ (toCompletion e ++ allToCompletion es) = _
    have happ : ∀ (a : Async) (l1 l2 : List AsyncEvent),
        asyncRun a (l1 ++ l2) = asyncRun (asyncRun a l1) l2 := by
      intro a l1 l2
      simp [asyncRun, List.foldl_append]
    rw [happ, asyncStep_toCompletion, ih]
    rfl

/-! ## The `answers` object -/

theorem answerOf_setAnswer_self (a : List (JsString × JsString)) (k v : JsString) :
    answerOf (setAnswer a k v) k = some v := by
  induction a with
  | nil => simp [setAnswer, answerOf]
  | cons kv rest ih =>
    obtain ⟨k1, v1⟩ := kv
    by_cases h : k1 = k
    · simp [setAnswer, answerOf, h]
    · simp [setAnswer, answerOf, h, ih]

theorem answerOf_setAnswer_other (a : List (JsString × JsString)) (k v k2 : JsString)
    (hne : k2 ≠ k) : answerOf (setAnswer a k v) k2 = answerOf a k2 := by
  induction a with
  | nil => simp [setAnswer, answerOf, Ne.symm hne]
  | cons kv rest ih =>
    obtain ⟨k1, v1⟩ := kv
    by_cases h : k1 = k
    · subst h
      have h2 : ¬ k1 = k2 := fun h3 => hne h3.symm
      simp [setAnswer, answerOf, h2]
    · by_cases h2 : k1 = k2
      · subst h2
        simp [setAnswer, answerOf, h]
      · simp [setAnswer, answerOf, h, h2, ih]

theorem mem_answerKeys_setAnswer (a : List (JsString × JsString)) (k v k2 : JsString) :
    k2 ∈ answerKeys (setAnswer a k v) ↔ k2 = k ∨ k2 ∈ answerKeys a := by
  induction a with
  | nil => simp [setAnswer, answerKeys]
  | cons kv rest ih =>
    obtain ⟨k1, v1⟩ := kv
    unfold answerKeys at ih ⊢
    by_cases h : k1 = k
    · simp [setAnswer, h]
    · simp only [setAnswer, h, if_false, List.map_cons, List.mem_cons, ih]
      tauto

theorem nodup_answerKeys_setAnswer (a : List (JsString × JsString)) (k v : JsString)
    (hn : (answerKeys a).Nodup) : (answerKeys (setAnswer a k v)).Nodup := by
  induction a with
  | nil => simp [setAnswer, answerKeys]
  | cons kv rest ih =>
    obtain ⟨k1, v1⟩ := kv
    by_cases h : k1 = k
    · simpa [setAnswer, h, answerKeys] using hn
    · have hn2 : k1 ∉ answerKeys rest ∧ (answerKeys rest).Nodup := by
        simpa [answerKeys] using hn
      have hmem := mem_answerKeys_setAnswer rest k v k1
      have hrec := ih hn2.2
      simp only [setAnswer, h, if_false]
      show (k1 :: answerKeys (setAnswer rest k v)).Nodup
      refine List.nodup_cons.2 ⟨?_, hrec⟩
      intro hin
      rcases hmem.1 hin with h3 | h3
      · exact h h3
      · exact hn2.1 h3

/-! ## Edits in Clarify -/

theorem applyEdits_append (qs : List JsString) (a : List (JsString × JsString))
    (edits : List (Nat × JsString)) (e : Nat × JsString) :
    applyEdits qs a (edits ++ [e]) =
      (match qs[e.1]? with
        | some q => setAnswer (applyEdits qs a edits) q e.2
        | none => applyEdits qs a edits) := by
  simp [applyEdits, List.foldl_append]

theorem lastEdit_append (qs : List JsString) (edits : List (Nat × JsString)) (e : Nat × JsString)
    (k : JsString) :
    lastEdit qs (edits ++ [e]) k =
      if qs[e.1]? = some k then some e.2 else lastEdit qs edits k := by
  unfold lastEdit
  rw [List.reverse_append, List.reverse_singleton, List.singleton_append, List.find?_cons]
  by_cases h : qs[e.1]? = some k
  · simp [h]
  · have hb : (qs[e.1]? == some k) = false := by
      rw [beq_eq_false_iff_ne]; exact h
    simp only [hb, h, if_false]

theorem uiStep_edit (s : State) (qs : List JsString) (e : Nat × JsString) (h2 : s.step = 2)
    (hq : s.questions = stringQuestions qs) :
    uiStep s (Event.typeAnswer e.1 e.2) = { s with answers := applyEdits qs s.answers [e] } := by
  have hqs : s.questions = some (Json.arr (qs.map Json.str)) := hq
  unfold uiStep
  rw [offered_typeAnswer s _ e.1 e.2 h2 hqs (validChildren_strings qs)]
  by_cases hlt : e.1 < qs.length
  · have hget : (qs.map Json.str)[e.1]? = some (Json.str (qs.get ⟨e.1, hlt⟩)) := by
      simp [List.getElem?_eq_getElem hlt]
    have hget2 : qs[e.1]? = some (qs.get ⟨e.1, hlt⟩) := by
      simp [List.getElem?_eq_getElem hlt]
    simp only [List.length_map, hlt, decide_True, if_true]
    rw [handle_typeAnswer s _ e.1 e.2 _ hqs hget]
    simp [applyEdits, hget2, toPropertyKey, Json.toJsString]
  · have hget2 : qs[e.1]? = none := by
      simp [List.getElem?_eq_none (Nat.le_of_not_lt hlt)]
    simp [hlt, applyEdits, hget2]

theorem uiRun_edits (qs : List JsString) (edits : List (Nat × JsString)) (s : State)
    (h2 : s.step = 2) (hq : s.questions = stringQuestions qs) :
    uiRun s (editEvents edits) = { s with answers := applyEdits qs s.answers edits } := by
  induction edits generalizing s with
  | nil => rfl
  | cons e es ih =>
    show uiRun (uiStep s (Event.typeAnswer e.1 e.2)) (editEvents es) = _
    rw [uiStep_edit s qs e h2 hq]
    have hrec := ih { s with answers := applyEdits qs s.answers [e] } h2 hq
    rw [hrec]
    rfl

theorem applyEdits_spec (qs : List JsString) (edits : List (Nat × JsString)) :
    (answerKeys (applyEdits qs [] edits)).Nodup ∧
      (∀ k, k ∈ answerKeys (applyEdits qs [] edits) ↔ ∃ e ∈ edits, qs[e.1]? = some k) ∧
      (∀ k, answerOf (applyEdits qs [] edits) k = lastEdit qs edits k) := by
  induction edits using List.reverseRecOn with
  | nil => simp [applyEdits, answerKeys, answerOf, lastEdit]
  | append_singleton es e ih =>
    obtain ⟨hn, hk, ha⟩ := ih
    rw [applyEdits_append]
    cases hq : qs[e.1]? with
    | none =>
      refine ⟨hn, ?_, ?_⟩
      · intro k
        rw [hk k]
        constructor
        · rintro ⟨e2, he2, hq2⟩
          exact ⟨e2, List.mem_append_left _ he2, hq2⟩
        · rintro ⟨e2, he2, hq2⟩
          rcases List.mem_append.1 he2 with h | h
          · exact ⟨e2, h, hq2⟩
          · rw [List.mem_singleton.1 h, hq] at hq2
            exact absurd hq2 (by simp)
      · intro k
        rw [lastEdit_append, hq, ha k]
        simp
    | some q =>
      refine ⟨nodup_answerKeys_setAnswer _ q e.2 hn, ?_, ?_⟩
      · intro k
        show k ∈ answerKeys (setAnswer (applyEdits qs [] es) q e.2) ↔ _
        rw [mem_answerKeys_setAnswer, hk k]
        constructor
        · rintro (h | ⟨e2, he2, hq2⟩)
          · exact ⟨e, List.mem_append_right _ (List.mem_singleton.2 rfl), by rw [hq, h]⟩
          · exact ⟨e2, List.mem_append_left _ he2, hq2⟩
        · rintro ⟨e2, he2, hq2⟩
          rcases List.mem_append.1 he2 with h | h
          · exact Or.inr ⟨e2, h, hq2⟩
          · rw [List.mem_singleton.1 h, hq] at hq2
            exact Or.inl (Option.some.inj hq2).symm
      · intro k
        show answerOf (setAnswer (applyEdits qs [] es) q e.2) k = _
        rw [lastEdit_append, hq]
        by_cases hkq : k = q
        · rw [hkq, answerOf_setAnswer_self]; simp
        · rw [answerOf_setAnswer_other _ _ _ _ hkq, ha k]
          have : ¬ (some q = some k) := fun h => hkq (Option.some.inj h).symm
          simp [this]

/-! ## Runs of the user interface -/

theorem uiStep_step_cases (s : State) (e : Event) :
    (uiStep s e).step = s.step ∨ (uiStep s e).step = 2 ∨ (uiStep s e).step = 3 := by
  rcases uiStep_cases s e with h | ⟨_, v, h⟩ | ⟨_, d, h⟩ | ⟨_, qs, i, v, q, _, _, _, h⟩ |
      ⟨_, d, h⟩ <;> rw [h] <;> simp

theorem uiRun_step_range (events : List Event) (s : State)
    (h : s.step = 1 ∨ s.step = 2 ∨ s.step = 3) :
    (uiRun s events).step = 1 ∨ (uiRun s events).step = 2 ∨ (uiRun s events).step = 3 := by
  induction events generalizing s with
  | nil => exact h
  | cons e es ih =>
    apply ih (uiStep s e)
    rcases uiStep_step_cases s e with h2 | h2 | h2
    · rw [h2]; exact h
    · exact Or.inr (Or.inl h2)
    · exact Or.inr (Or.inr h2)

theorem uiStep_topicEntry_answers (s : State) (e : Event)
    (h : s.step = 1 → s.answers = []) : (uiStep s e).step = 1 → (uiStep s e).answers = [] := by
  rcases uiStep_cases s e with hs | ⟨_, v, hs⟩ | ⟨_, d, hs⟩ | ⟨h2, qs, i, v, q, _, _, _, hs⟩ |
      ⟨_, d, hs⟩ <;> rw [hs]
  · exact h
  · exact h
  · intro h1; exact absurd h1 (by simp)
  · intro h1
    have h3 : s.step = 1 := h1
    omega
  · intro h1; exact absurd h1 (by simp)

theorem uiRun_topicEntry_answers (events : List Event) (s : State)
    (h : s.step = 1 → s.answers = []) : (uiRun s events).step = 1 → (uiRun s events).answers = [] := by
  induction events generalizing s with
  | nil => exact h
  | cons e es ih => exact ih (uiStep s e) (uiStep_topicEntry_answers s e h)

/-- C9: ReportReady is terminal. In a state with `step = 3` the rendered UI
offers no event, so any sequence of user actions, each run to completion,
leaves the whole state (step and report included) as it is; along every run
the step never decreases; and from the initial state it is always 1, 2
or 3. -/
theorem reportReady_terminal (s : State) (events more : List Event) :
    (s.step = 3 → (∀ e, offered s e = false) ∧ uiRun s events = s) ∧
      s.step ≤ (uiRun s events).step ∧
      (uiRun s events).step ≤ (uiRun s (events ++ more)).step ∧
      ((uiRun initialState events).step = 1 ∨ (uiRun initialState events).step = 2 ∨
        (uiRun initialState events).step = 3) := by
  refine ⟨fun h => ⟨fun e => offered_step3 s e h, uiRun_step3 events s h⟩,
    uiRun_step_le events s, ?_, uiRun_step_range events initialState (Or.inl rfl)⟩
  rw [uiRun_append]
  exact uiRun_step_le more _

/-- C9 at the scenario's ReportReady state: clicking, typing and submitting
again change nothing. -/
theorem reportReady_terminal_witness :
    scenarioReportReady.step = 3 ∧
      uiRun scenarioReportReady
        [Event.clickStart (Response.parsed scenarioStartData), Event.typeAnswer 0 "x",
          Event.typeTopic "y",
          Event.clickGenerate (Response.parsed scenarioRefinedData)
            (Response.parsed scenarioReportData)] = scenarioReportReady :=
  ⟨rfl, ((reportReady_terminal scenarioReportReady _ []).1 rfl).2⟩

/-- C4, as stated, fails: after the response `\x7b\x7d` to start-session the
state has `step = 2` with `sessionId` undefined, and after a generate-report
response `\x7b\x7d` it has `step = 3` with `report.html` undefined; both runs
are runs of the rendered UI. -/
theorem step_gates_fields_counterexample :
    (uiRun initialState [Event.clickStart (Response.parsed (Json.obj []))]).step = 2 ∧
      (uiRun initialState [Event.clickStart (Response.parsed (Json.obj []))]).sessionId
        = none ∧
      (uiRun initialState
        [Event.clickStart (Response.parsed scenarioStartData),
          Event.clickGenerate (Response.parsed scenarioRefinedData)
            (Response.parsed (Json.obj []))]).step = 3 ∧
      (uiRun initialState
        [Event.clickStart (Response.parsed scenarioStartData),
          Event.clickGenerate (Response.parsed scenarioRefinedData)
            (Response.parsed (Json.obj []))]).report.html = none ∧
      (runHandlers initialState [Event.clickStart (Response.parsed (Json.obj []))]).step = 2 ∧
      (runHandlers initialState [Event.clickStart (Response.parsed (Json.obj []))]).sessionId
        = none :=
  ⟨rfl, rfl, rfl, rfl, rfl, rfl⟩

/-- C4, amended: in every state reachable from the initial state by any
sequence of handler completions (topic edits, `startSession`, answer edits,
`submitAnswers`) under arbitrary responses, in any order, and so in every
state reachable through the rendered UI, `step` is 1, 2 or 3. -/
theorem step_in_range (events : List Event) :
    ((runHandlers initialState events).step = 1 ∨ (runHandlers initialState events).step = 2 ∨
        (runHandlers initialState events).step = 3) ∧
      ((uiRun initialState events).step = 1 ∨ (uiRun initialState events).step = 2 ∨
        (uiRun initialState events).step = 3) :=
  ⟨runHandlers_step events initialState (Or.inl rfl),
    uiRun_step_range events initialState (Or.inl rfl)⟩


theorem uiStep_clickStart_parsed (s : State) (data : Json) (h1 : s.step = 1)
    (hn : data.isNull = false) :
    uiStep s (Event.clickStart (Response.parsed data)) =
      { s with
        sessionId := data.get "session_id"
        questions := data.get "questions"
        step := 2 } := by
  have hoff : offered s (Event.clickStart (Response.parsed data)) = true :=
    (offered_step1 _ _ h1).2 (Or.inr ⟨_, rfl⟩)
  simp only [uiStep, hoff, if_true, handle]
  rw [startSession_parsed _ data hn]

/-- C5, as stated, fails. When Start is clicked twice before a response
arrives, the first call resumes with two questions, the user types into
their inputs and the second call resumes with zero questions, Clarify shows
no answer input and yet `submitAnswers` sends the non-empty mapping
`\x7bq1: "x", q2: "y"\x7d`. And when start-session returns zero questions with the
`session_id` `1e400`, the stored `sessionId` is that number while the body
carries `session_id: null`. -/
theorem zero_questions_counterexample :
    racedZeroQuestions.step = 2 ∧
      racedZeroQuestions.questions = some (Json.arr []) ∧
      render racedZeroQuestions
        = some [Element.heading "Clarifying Questions", Element.generateButton] ∧
      sentAnswers (submitAnswers racedZeroQuestions (Response.parsed scenarioRefinedData)
        (Response.parsed scenarioReportData))
        = some (Json.obj [("q1", Json.str "x"), ("q2", Json.str "y")]) ∧
      infiniteSessionClarify.step = 2 ∧
      infiniteSessionClarify.questions = some (Json.arr []) ∧
      infiniteSessionClarify.sessionId = some (Json.infinity false) ∧
      (submitAnswers infiniteSessionClarify (Response.parsed scenarioRefinedData)
        (Response.parsed scenarioReportData)).sent =
        [{ url := "http://localhost:8000/submit_answers"
           body := Json.obj [("session_id", Json.null), ("answers", Json.obj [])] },
         { url := "http://localhost:8000/generate_report"
           body := Json.obj [("refined_topic", Json.str "Quantum Computing for Engineers")] }] :=
  ⟨rfl, rfl, rfl, rfl, rfl, rfl, rfl, rfl⟩

/-- C5, amended: with each action running to completion before the next
begins, when, in a TopicEntry state reached from the initial state,
start-session answers with `session_id = sid` and zero questions, the state
`s1` entered is Clarify, its view is the heading and the "Generate Report"
button with no answer input, no answer edit is on offer, the button is, and
`submitAnswers` sends as its first request, whatever the responses, the body
with the member `session_id`, holding `sid` as `JSON.stringify` writes it
(`sid` itself when it is a string, `null` when it is a non-finite number),
and the empty `answers` mapping. -/
theorem zero_questions_submit_empty_answers (pre : List Event) (data sid : Json)
    (r1 r2 : Response) (s1 : State) (hstep : (uiRun initialState pre).step = 1)
    (hsid : data.get "session_id" = some sid)
    (hq : data.get "questions" = some (Json.arr []))
    (hs1 : s1 = uiStep (uiRun initialState pre) (Event.clickStart (Response.parsed data))) :
    s1.step = 2 ∧
      render s1 = some [Element.heading "Clarifying Questions", Element.generateButton] ∧
      (∀ i v, offered s1 (Event.typeAnswer i v) = false) ∧
      offered s1 (Event.clickGenerate r1 r2) = true ∧
      uiStep s1 (Event.clickGenerate r1 r2) = (submitAnswers s1 r1 r2).state ∧
      (∃ rest, (submitAnswers s1 r1 r2).sent =
        { url := "http://localhost:8000/submit_answers"
          body := Json.obj [("session_id", sid.written), ("answers", Json.obj [])] }
          :: rest) ∧
      (∀ t : JsString, sid = Json.str t → sid.written = sid) ∧
      (∀ negative, sid = Json.infinity negative → sid.written = Json.null) := by
  have ha : (uiRun initialState pre).answers = [] :=
    uiRun_topicEntry_answers pre initialState (fun _ => rfl) hstep
  have hs : s1 = { uiRun initialState pre with
      sessionId := some sid
      questions := some (Json.arr [])
      step := 2 } := by
    rw [hs1, uiStep_clickStart_parsed _ data hstep (isNull_of_get hsid), hsid, hq]
  have h2 : s1.step = 2 := by rw [hs]
  have hqs : s1.questions = some (Json.arr []) := by rw [hs]
  have hsa : s1.answers = [] := by rw [hs]; exact ha
  have hss : s1.sessionId = some sid := by rw [hs]
  have hgen := offered_clickGenerate s1 [] r1 r2 h2 hqs rfl
  refine ⟨h2, ?_, ?_, hgen, ?_, ?_, ?_, ?_⟩
  · rw [render_step2 s1 [] h2 hqs rfl]; rfl
  · intro i v
    rw [offered_typeAnswer s1 [] i v h2 hqs rfl]
    simp
  · simp [uiStep, hgen, handle]
  · obtain ⟨rest, hrest⟩ := submitAnswers_first_request s1 r1 r2
    refine ⟨rest, ?_⟩
    rw [hrest, hss, hsa]
    rfl
  · intro t ht
    rw [ht, written_str]
  · intro negative hn
    rw [hn]
    rfl

/-- The amended C5 at the scenario's topic with the response
`\x7bsession_id: "abc123", questions: []\x7d`. -/
theorem zero_questions_submit_empty_answers_witness :
    ((uiRun initialState [Event.typeTopic "Quantum Computing"]).step = 1 ∧
      zeroQuestionData.get "session_id" = some (Json.str "abc123") ∧
      zeroQuestionData.get "questions" = some (Json.arr [])) ∧
    ∃ rest,
      (submitAnswers
        (uiStep (uiRun initialState [Event.typeTopic "Quantum Computing"])
          (Event.clickStart (Response.parsed zeroQuestionData)))
        (Response.parsed scenarioRefinedData) (Response.parsed scenarioReportData)).sent =
      { url := "http://localhost:8000/submit_answers"
        body := Json.obj [("session_id", Json.str "abc123"), ("answers", Json.obj [])] }
        :: rest :=
  ⟨⟨rfl, rfl, rfl⟩,
    (zero_questions_submit_empty_answers [Event.typeTopic "Quantum Computing"]
      zeroQuestionData (Json.str "abc123") (Response.parsed scenarioRefinedData)
      (Response.parsed scenarioReportData) _ rfl rfl rfl rfl).2.2.2.2.2.1⟩

theorem mem_of_index_eq_some {α : Type} {l : List α} {i : Nat} {x : α}
    (h : l[i]? = some x) : x ∈ l := by
  obtain ⟨hi, hx⟩ := List.getElem?_eq_some.1 h
  rw [← hx]
  exact List.getElem_mem hi

theorem uiStep_answers_invariant (s : State) (e : Event)
    (hn : (answerKeys s.answers).Nodup)
    (hk : ∀ k ∈ answerKeys s.answers,
      ∃ shown q, s.questions = some (Json.arr shown) ∧ q ∈ shown ∧ k = toPropertyKey q)
    (h1 : s.step = 1 → s.answers = []) :
    (answerKeys (uiStep s e).answers).Nodup ∧
      ∀ k ∈ answerKeys (uiStep s e).answers,
        ∃ shown q, (uiStep s e).questions = some (Json.arr shown) ∧ q ∈ shown ∧
          k = toPropertyKey q := by
  rcases uiStep_cases s e with hs | ⟨_, v, hs⟩ | ⟨hst, d, hs⟩ |
      ⟨_, qs, i, v, q, hq, hi, _, hs⟩ | ⟨_, d, hs⟩ <;> rw [hs]
  · exact ⟨hn, hk⟩
  · exact ⟨hn, hk⟩
  · refine ⟨hn, ?_⟩
    intro k hmem
    have hmem2 : k ∈ answerKeys s.answers := hmem
    rw [h1 hst] at hmem2
    exact absurd hmem2 (by simp [answerKeys])
  · refine ⟨nodup_answerKeys_setAnswer _ _ _ hn, ?_⟩
    intro k hmem
    rcases (mem_answerKeys_setAnswer _ _ _ _).1 hmem with h | h
    · exact ⟨qs, q, hq, mem_of_index_eq_some hi, h⟩
    · exact hk k h
  · exact ⟨hn, hk⟩

theorem uiRun_answers_invariant (events : List Event) (s : State)
    (hn : (answerKeys s.answers).Nodup)
    (hk : ∀ k ∈ answerKeys s.answers,
      ∃ shown q, s.questions = some (Json.arr shown) ∧ q ∈ shown ∧ k = toPropertyKey q)
    (h1 : s.step = 1 → s.answers = []) :
    (answerKeys (uiRun s events).answers).Nodup ∧
      ∀ k ∈ answerKeys (uiRun s events).answers,
        ∃ shown q, (uiRun s events).questions = some (Json.arr shown) ∧ q ∈ shown ∧
          k = toPropertyKey q := by
  induction events generalizing s with
  | nil => exact ⟨hn, hk⟩
  | cons e es ih =>
    obtain ⟨hn2, hk2⟩ := uiStep_answers_invariant s e hn hk h1
    exact ih (uiStep s e) hn2 hk2 (uiStep_topicEntry_answers s e h1)

/-! ## The answers that are sent -/

/-- C2, as stated, fails: in the scenario's Clarify state, reached through
the UI and showing two questions, `submitAnswers` sends an empty `answers`
mapping when nothing was typed, and a mapping with the single key
"What aspect?" when only the first input was typed into. -/
theorem sent_answers_counterexample :
    uiRun initialState
        [Event.typeTopic "Quantum Computing",
          Event.clickStart (Response.parsed scenarioStartData)] = scenarioClarify ∧
      scenarioClarify.questions = stringQuestions ["What aspect?", "Intended audience?"] ∧
      sentAnswers (submitAnswers scenarioClarify (Response.parsed scenarioRefinedData)
        (Response.parsed scenarioReportData)) = some (Json.obj []) ∧
      sentAnswers (submitAnswers (uiRun scenarioClarify (editEvents [(0, "Hardware")]))
        (Response.parsed scenarioRefinedData) (Response.parsed scenarioReportData))
        = some (Json.obj [("What aspect?", Json.str "Hardware")]) ∧
      answerKeys (uiRun scenarioClarify (editEvents [(0, "Hardware")])).answers
        = ["What aspect?"] ∧
      answerOf (uiRun scenarioClarify (editEvents [(0, "Hardware")])).answers
        "Intended audience?" = none :=
  ⟨rfl, rfl, rfl, rfl, rfl, rfl⟩

/-- C2, amended: for every list `qs` of displayed questions and every
sequence of input edits made in a Clarify state entered with no answers, the
`answers` mapping that `submitAnswers` sends to submit-answers is the stored
one, every key with its string; it has at most one entry per displayed
question text, keyed by that literal text: its keys are pairwise distinct, a text is a key exactly when
some edit was made to an input showing that text (so every key is a
displayed question and a question never typed into has no entry), and the
number of entries is at most the number of displayed questions. -/
theorem sent_answers_cover_edited_questions (s0 : State) (qs : List JsString)
    (edits : List (Nat × JsString)) (r1 r2 : Response) (h2 : s0.step = 2)
    (hq : s0.questions = stringQuestions qs) (ha : s0.answers = []) :
    sentAnswers (submitAnswers (uiRun s0 (editEvents edits)) r1 r2)
        = some (answersJson (uiRun s0 (editEvents edits)).answers) ∧
      (answerKeys (uiRun s0 (editEvents edits)).answers).Nodup ∧
      (∀ k, k ∈ answerKeys (uiRun s0 (editEvents edits)).answers ↔
        ∃ e ∈ edits, qs[e.1]? = some k) ∧
      (∀ k ∈ answerKeys (uiRun s0 (editEvents edits)).answers, k ∈ qs) ∧
      (answerKeys (uiRun s0 (editEvents edits)).answers).length ≤ qs.length ∧
      (∀ k, (answersJson (uiRun s0 (editEvents edits)).answers).get k
        = (answerOf (uiRun s0 (editEvents edits)).answers k).map Json.str) := by
  obtain ⟨hn, hk, _⟩ := applyEdits_spec qs edits
  have hrun : (uiRun s0 (editEvents edits)).answers = applyEdits qs [] edits := by
    rw [uiRun_edits qs edits s0 h2 hq, ha]
  rw [hrun]
  have hsub : ∀ k ∈ answerKeys (applyEdits qs [] edits), k ∈ qs := by
    intro k hmem
    obtain ⟨e, _, he⟩ := (hk k).1 hmem
    exact mem_of_index_eq_some he
  refine ⟨?_, hn, hk, hsub, (List.subperm_of_subset hn hsub).length_le,
    get_answersJson _⟩
  rw [sentAnswers_submitAnswers, hrun]

/-- The amended C2 at the scenario's Clarify state with one edit to the
first input. -/
theorem sent_answers_cover_edited_questions_witness :
    (scenarioClarify.step = 2 ∧
      scenarioClarify.questions = stringQuestions ["What aspect?", "Intended audience?"] ∧
      scenarioClarify.answers = []) ∧
    (answerKeys (uiRun scenarioClarify (editEvents [(0, "Hardware")])).answers).length
      ≤ ["What aspect?", "Intended audience?"].length ∧
    sentAnswers (submitAnswers
        (uiRun scenarioClarify (editEvents [(1, "Engineers"), (0, "Hardware")]))
        (Response.parsed scenarioRefinedData) (Response.parsed scenarioReportData))
      = some (Json.obj [("Intended audience?", Json.str "Engineers"),
          ("What aspect?", Json.str "Hardware")]) :=
  ⟨⟨rfl, rfl, rfl⟩,
    (sent_answers_cover_edited_questions scenarioClarify ["What aspect?", "Intended audience?"]
      [(0, "Hardware")] (Response.parsed scenarioRefinedData)
      (Response.parsed scenarioReportData) rfl rfl rfl).2.2.2.2.1,
    rfl⟩


/-! ## Edits and the displayed questions -/

/-- C10, as stated, fails. When Start is clicked twice before a response
arrives, the first call resumes with the questions "q1" and "q2", the user
types "x" and "y" into their inputs and the second call resumes with the
question "other", Clarify shows the single question "other" while `answers`
still holds the keys "q1" and "q2", which are no displayed questions. -/
theorem edits_update_answers_counterexample :
    racedOtherQuestion.step = 2 ∧
      racedOtherQuestion.questions = stringQuestions ["other"] ∧
      render racedOtherQuestion =
        some [Element.heading "Clarifying Questions",
          Element.questionInput 0 (Json.str "other"), Element.generateButton] ∧
      racedOtherQuestion.answers
        = [(toUTF16 "q1", toUTF16 "x"), (toUTF16 "q2", toUTF16 "y")] ∧
      (toUTF16 "q1") ∈ answerKeys racedOtherQuestion.answers ∧
      (toUTF16 "q1") ∉ [toUTF16 "other"] :=
  ⟨rfl, rfl, rfl, rfl, by decide, by decide⟩

/-- C10, amended: editing the input number `i`, which is on screen (so the
state is Clarify) and shows question `q`, to value `v` replaces `answers` by the same
mapping with the key of `q` (its text when `q` is a string) bound to `v`:
that key reads `v`, every other key reads what it read before, and the keys
are the old ones and the key of `q`; when a question is a plain object the
view throws and no input is on screen. Hence, with each action running to
completion before the next begins, in every state reached from the initial
state the keys of `answers` are pairwise distinct and each is the key of a
displayed question; and after Clarify is entered from TopicEntry on the
string questions `qs` and any sequence of edits is made, every key of
`answers` is one of the displayed texts, the entry of a text is the value of
the most recent edit to an input showing that text (none if there was no
such edit), and the keys are pairwise distinct, so that two inputs showing
the same text share one entry. -/
theorem edits_update_answers (s : State) (shown : List Json) (i : Nat) (v : JsString)
    (q : Json) (events pre : List Event) (data : Json) (qs : List JsString)
    (edits : List (Nat × JsString))
    (hshown : s.questions = some (Json.arr shown))
    (hscreen : offered s (Event.typeAnswer i v) = true) (hi : shown[i]? = some q)
    (hpre : (uiRun initialState pre).step = 1)
    (hdata : data.get "questions" = stringQuestions qs) :
    (uiStep s (Event.typeAnswer i v) =
        { s with answers := setAnswer s.answers (toPropertyKey q) v } ∧
      (∀ t, q = Json.str t → toPropertyKey q = t) ∧
      answerOf (setAnswer s.answers (toPropertyKey q) v) (toPropertyKey q) = some v ∧
      (∀ k, k ≠ toPropertyKey q →
        answerOf (setAnswer s.answers (toPropertyKey q) v) k = answerOf s.answers k) ∧
      (∀ k, k ∈ answerKeys (setAnswer s.answers (toPropertyKey q) v) ↔
        k = toPropertyKey q ∨ k ∈ answerKeys s.answers) ∧
      (∀ (t : State) (ts : List Json) (fields : List (JsString × Json)), t.step = 2 →
        t.questions = some (Json.arr ts) → Json.obj fields ∈ ts →
        render t = none ∧ ∀ j w, offered t (Event.typeAnswer j w) = false)) ∧
    ((answerKeys (uiRun initialState events).answers).Nodup ∧
      ∀ k ∈ answerKeys (uiRun initialState events).answers,
        ∃ displayed d, (uiRun initialState events).questions = some (Json.arr displayed) ∧
          d ∈ displayed ∧ k = toPropertyKey d) ∧
    ((uiRun initialState
        (pre ++ Event.clickStart (Response.parsed data) :: editEvents edits)).questions
        = stringQuestions qs ∧
      (∀ k ∈ answerKeys (uiRun initialState
          (pre ++ Event.clickStart (Response.parsed data) :: editEvents edits)).answers,
        k ∈ qs) ∧
      (∀ k, answerOf (uiRun initialState
          (pre ++ Event.clickStart (Response.parsed data) :: editEvents edits)).answers k
        = lastEdit qs edits k) ∧
      (answerKeys (uiRun initialState
        (pre ++ Event.clickStart (Response.parsed data) :: editEvents edits)).answers).Nodup) := by
  refine ⟨?_, ?_, ?_⟩
  · refine ⟨?_, ?_, answerOf_setAnswer_self _ _ _,
      fun k hk => answerOf_setAnswer_other _ _ _ _ hk,
      fun k => mem_answerKeys_setAnswer _ _ _ _, ?_⟩
    · simp only [uiStep, hscreen, if_true]
      exact handle_typeAnswer s shown i v q hshown hi
    · intro t ht
      rw [ht]
      rfl
    · intro t ts fields ht hts hmem
      have hno : ∀ qs, t.questions = some (Json.arr qs) → Json.validChildren qs = false := by
        intro qs hqs
        rw [hts] at hqs
        have heq : ts = qs := by
          injection hqs with h1
          injection h1
        rw [← heq]
        exact validChildren_of_object ts fields hmem
      exact ⟨render_step2_none t ht hno, fun j w => offered_noRender t _ ht hno⟩
  · exact uiRun_answers_invariant events initialState (by simp [initialState, answerKeys])
      (by intro k hmem; exact absurd hmem (by simp [initialState, answerKeys]))
      (fun _ => rfl)
  · obtain ⟨hn, hk, hlast⟩ := applyEdits_spec qs edits
    have ha : (uiRun initialState pre).answers = [] :=
      uiRun_topicEntry_answers pre initialState (fun _ => rfl) hpre
    have hrun : uiRun initialState
        (pre ++ Event.clickStart (Response.parsed data) :: editEvents edits)
        = { uiRun initialState pre with
            sessionId := data.get "session_id"
            questions := stringQuestions qs
            step := 2
            answers := applyEdits qs [] edits } := by
      rw [uiRun_append]
      show uiRun (uiStep (uiRun initialState pre) _) (editEvents edits) = _
      rw [uiStep_clickStart_parsed _ data hpre (isNull_of_get hdata), hdata,
        uiRun_edits qs edits _ rfl rfl]
      simp only [ha]
    rw [hrun]
    refine ⟨rfl, ?_, hlast, hn⟩
    intro k hmem
    obtain ⟨e, _, he⟩ := (hk k).1 hmem
    exact mem_of_index_eq_some he

/-- The amended C10 at the scenario's Clarify state, and at a start-session
response showing the text "Same?" twice: the edits `(0, "a")` then `(1, "b")`
leave the single entry "Same?" with value "b". -/
theorem edits_update_answers_witness :
    (scenarioClarify.questions
        = some (Json.arr [Json.str "What aspect?", Json.str "Intended audience?"]) ∧
      offered scenarioClarify (Event.typeAnswer 1 "Engineers") = true ∧
      [Json.str "What aspect?", Json.str "Intended audience?"][1]?
        = some (Json.str "Intended audience?") ∧
      (uiRun initialState [Event.typeTopic "Quantum Computing"]).step = 1 ∧
      (Json.obj [("questions", Json.arr [Json.str "Same?", Json.str "Same?"])]).get "questions"
        = stringQuestions ["Same?", "Same?"]) ∧
    uiStep scenarioClarify (Event.typeAnswer 1 "Engineers") =
      { scenarioClarify with answers := [("Intended audience?", "Engineers")] } ∧
    (uiRun initialState
      ([Event.typeTopic "Quantum Computing"] ++
        Event.clickStart (Response.parsed
          (Json.obj [("questions", Json.arr [Json.str "Same?", Json.str "Same?"])]))
        :: editEvents [(0, "a"), (1, "b")])).answers = [(toUTF16 "Same?", toUTF16 "b")] ∧
    answerOf (uiRun initialState
      ([Event.typeTopic "Quantum Computing"] ++
        Event.clickStart (Response.parsed
          (Json.obj [("questions", Json.arr [Json.str "Same?", Json.str "Same?"])]))
        :: editEvents [(0, "a"), (1, "b")])).answers "Same?"
      = lastEdit ["Same?", "Same?"] [(0, "a"), (1, "b")] "Same?" ∧
    lastEdit ["Same?", "Same?"] [(0, "a"), (1, "b")] "Same?" = some (toUTF16 "b") ∧
    offered { scenarioClarify with questions := some (Json.arr [Json.obj []]) }
      (Event.typeAnswer 0 "Engineers") = false :=
  ⟨⟨rfl, rfl, rfl, rfl, rfl⟩,
    (edits_update_answers scenarioClarify
      [Json.str "What aspect?", Json.str "Intended audience?"] 1 "Engineers"
      (Json.str "Intended audience?") [] [Event.typeTopic "Quantum Computing"]
      (Json.obj [("questions", Json.arr [Json.str "Same?", Json.str "Same?"])])
      ["Same?", "Same?"] [(0, "a"), (1, "b")] rfl rfl rfl rfl rfl).1.1,
    rfl,
    (edits_update_answers scenarioClarify
      [Json.str "What aspect?", Json.str "Intended audience?"] 1 "Engineers"
      (Json.str "Intended audience?") [] [Event.typeTopic "Quantum Computing"]
      (Json.obj [("questions", Json.arr [Json.str "Same?", Json.str "Same?"])])
      ["Same?", "Same?"] [(0, "a"), (1, "b")] rfl rfl rfl rfl rfl).2.2.2.2.1 "Same?",
    rfl,
    ((edits_update_answers scenarioClarify
      [Json.str "What aspect?", Json.str "Intended audience?"] 1 "Engineers"
      (Json.str "Intended audience?") [] [Event.typeTopic "Quantum Computing"]
      (Json.obj [("questions", Json.arr [Json.str "Same?", Json.str "Same?"])])
      ["Same?", "Same?"] [(0, "a"), (1, "b")] rfl rfl rfl rfl rfl).1.2.2.2.2.2
      { scenarioClarify with questions := some (Json.arr [Json.obj []]) }
      [Json.obj []] [] rfl rfl (List.mem_singleton.2 rfl)).2 0 "Engineers"⟩

/-! ## What `submitAnswers` sends -/

/-- C6, as stated, fails. On the submit-answers response
`\x7b"refined_topic": 1e400\x7d` the `refined_topic` returned is the number
`Infinity`, yet `submitAnswers` sends `\x7brefined_topic: null\x7d` to
generate-report; and in the Clarify state entered on the `session_id` `1e400`
it sends `session_id: null`, not the stored `sessionId`. -/
theorem submitAnswers_serialises_counterexample :
    (Json.obj [("refined_topic", Json.infinity false)]).get "refined_topic"
        = some (Json.infinity false) ∧
      (submitAnswers scenarioAnswered
        (Response.parsed (Json.obj [("refined_topic", Json.infinity false)]))
        (Response.parsed scenarioReportData)).sent =
        [{ url := "http://localhost:8000/submit_answers"
           body := Json.obj [("session_id", Json.str "abc123"),
             ("answers", Json.obj [("What aspect?", Json.str "Hardware"),
               ("Intended audience?", Json.str "Engineers")])] },
         { url := "http://localhost:8000/generate_report"
           body := Json.obj [("refined_topic", Json.null)] }] ∧
      infiniteSessionClarify.step = 2 ∧
      infiniteSessionClarify.sessionId = some (Json.infinity false) ∧
      (submitAnswers infiniteSessionClarify (Response.parsed scenarioRefinedData)
        (Response.parsed scenarioReportData)).sent =
        [{ url := "http://localhost:8000/submit_answers"
           body := Json.obj [("session_id", Json.null), ("answers", Json.obj [])] },
         { url := "http://localhost:8000/generate_report"
           body := Json.obj [("refined_topic", Json.str "Quantum Computing for Engineers")] }] :=
  ⟨rfl, rfl, rfl, rfl, rfl⟩

/-- C6, amended: for every state (in particular every Clarify state) and
every pair of parsed responses carrying `refined_topic = r`,
`html_content = h` and `pdf_path = p`, `submitAnswers` first sends to
submit-answers what `JSON.stringify` writes for
`\x7bsession_id: the stored sessionId, answers: the stored answers\x7d`: the
member `session_id` holds the stored `sessionId` as written (no member when
it is `undefined`), and `answers` has exactly the stored entries, each key
with its string; it then sends `\x7brefined_topic: r as written\x7d` to
generate-report; a string is written as itself, so a string `sessionId` and
a string `r` are sent exactly, while a non-finite number is written as
`null`. It then stores `report = \x7bhtml: h, pdf: p\x7d`
and `step = 3`, leaving `topic`, `questions`, `answers` and `sessionId` as
they were. -/
theorem submitAnswers_sends_then_stores (st : State) (d1 d2 r h p : Json)
    (hr : d1.get "refined_topic" = some r) (hh : d2.get "html_content" = some h)
    (hp : d2.get "pdf_path" = some p) :
    (submitAnswers st (Response.parsed d1) (Response.parsed d2)).sent =
        [{ url := "http://localhost:8000/submit_answers"
           body :=
             match st.sessionId with
             | some sid =>
               Json.obj [("session_id", sid.written), ("answers", answersJson st.answers)]
             | none => Json.obj [("answers", answersJson st.answers)] },
         { url := "http://localhost:8000/generate_report"
           body := Json.obj [("refined_topic", r.written)] }] ∧
      (∀ t : JsString, (Json.str t).written = Json.str t) ∧
      (∀ negative, (Json.infinity negative).written = Json.null) ∧
      (∀ k, (answersJson st.answers).get k = (answerOf st.answers k).map Json.str) ∧
      (submitAnswers st (Response.parsed d1) (Response.parsed d2)).threw = false ∧
      (submitAnswers st (Response.parsed d1) (Response.parsed d2)).state.report
        = { html := some h, pdf := some p } ∧
      (submitAnswers st (Response.parsed d1) (Response.parsed d2)).state.step = 3 ∧
      (submitAnswers st (Response.parsed d1) (Response.parsed d2)).state.topic = st.topic ∧
      (submitAnswers st (Response.parsed d1) (Response.parsed d2)).state.questions
        = st.questions ∧
      (submitAnswers st (Response.parsed d1) (Response.parsed d2)).state.answers
        = st.answers ∧
      (submitAnswers st (Response.parsed d1) (Response.parsed d2)).state.sessionId
        = st.sessionId := by
  rw [submitAnswers_parsed st d1 d2 (isNull_of_get hr) (isNull_of_get hh), hr, hh, hp]
  refine ⟨?_, written_str, fun _ => rfl, get_answersJson st.answers, rfl, rfl, rfl, rfl, rfl,
    rfl, rfl⟩
  cases hs : st.sessionId <;>
    simp [stringify, written_answersJson]

/-- The amended C6 at the scenario after both questions were answered:
`refined_topic` "Quantum Computing for Engineers", `html_content`
"<html>...</html>", `pdf_path` "/tmp/report.pdf". -/
theorem submitAnswers_sends_then_stores_witness :
    (scenarioRefinedData.get "refined_topic"
        = some (Json.str "Quantum Computing for Engineers") ∧
      scenarioReportData.get "html_content" = some (Json.str "<html>...</html>") ∧
      scenarioReportData.get "pdf_path" = some (Json.str "/tmp/report.pdf")) ∧
    (submitAnswers scenarioAnswered (Response.parsed scenarioRefinedData)
        (Response.parsed scenarioReportData)).sent =
      [{ url := "http://localhost:8000/submit_answers"
         body := Json.obj [("session_id", Json.str "abc123"),
           ("answers", Json.obj [("What aspect?", Json.str "Hardware"),
             ("Intended audience?", Json.str "Engineers")])] },
       { url := "http://localhost:8000/generate_report"
         body := Json.obj [("refined_topic", Json.str "Quantum Computing for Engineers")] }] ∧
    (submitAnswers scenarioAnswered (Response.parsed scenarioRefinedData)
        (Response.parsed scenarioReportData)).state =
      { scenarioAnswered with
        report := { html := some (Json.str "<html>...</html>"),
                    pdf := some (Json.str "/tmp/report.pdf") }
        step := 3 } :=
  ⟨⟨rfl, rfl, rfl⟩,
    (submitAnswers_sends_then_stores scenarioAnswered scenarioRefinedData scenarioReportData
      (Json.str "Quantum Computing for Engineers")
      (Json.str "<html>...</html>") (Json.str "/tmp/report.pdf")
      rfl rfl rfl).1,
    rfl⟩

end App
